import Mathlib

/-!
Verification development for the spreadsheet import/export pipeline of the
IR-CRM repository.

The embedding below is a shallow model of the TypeScript sources:
  * the import library (`parseExcelDate`, `parsePriority`,
    `normalizeColumnName`, `columnMappings`, `extraNotesColumns`,
    `getExcelSheets`, `parseExcelFile`, `parseAllSheets`, `mapToContacts`,
    `importContacts`),
  * the export library (`sanitizeName`, `generateExcel`, `exportAllData`),
  * the sheet-selection handlers of the `ExcelImport` component
    (`handleFileSelect`, `handleSheetsConfirm`).

Modelling conventions:
  * JavaScript numbers are modelled as exact rationals (`ℚ`).  Every IEEE
    double is an exact rational, and no settled claim depends on
    floating-point rounding.  `NaN` cell values are not modelled.
  * A spreadsheet cell value (`unknown` in TS) is modelled by `CellValue`:
    a string, a number, a boolean or `null`/`undefined`.  With the reader
    options the import library uses (`raw: true`, no `cellDates`), these
    are exactly the shapes `sheet_to_json` produces.
  * The ambient local-time-zone offset of the JavaScript engine appears as
    an explicit parameter `tz` (minutes east of UTC): `new Date("y-m-d")`
    parses an ISO date-only literal at UTC midnight, while the
    `getFullYear/getMonth/getDate` accessors read local time.
  * Remote collaborators (the authenticated user, the per-batch insert
    outcome, the per-file download outcome) are explicit parameters; the
    write requests issued to storage are returned so that theorems can
    speak about what was (not) written.
-/

/-- Characters matched by the JavaScript `\s` class (the ASCII part plus
NBSP), used by `String.prototype.trim` and by the column-name regex. -/
def jsIsWhitespace (c : Char) : Bool :=
  c = ' ' ∨ c = '\t' ∨ c = '\n' ∨ c = '\r' ∨ c = '\x0b' ∨ c = '\x0c' ∨ c = ' '

/-- JavaScript `String.prototype.trim`: drop `\s` characters at both ends. -/
def jsTrim (s : String) : String :=
  ⟨((s.toList.dropWhile jsIsWhitespace).reverse.dropWhile jsIsWhitespace).reverse⟩

/-- JavaScript `String.prototype.toLowerCase` restricted to ASCII, which is
all the lookup tables contain. -/
def jsToLower (s : String) : String :=
  ⟨s.toList.map Char.toLower⟩

/-- A raw spreadsheet cell value (`unknown` in the TypeScript sources). -/
inductive CellValue where
  | str (s : String)
  | num (q : ℚ)
  | bool (b : Bool)
  | null
deriving Repr, DecidableEq

/-- JavaScript truthiness of a cell value (`if (!value) ...`). -/
def truthy : CellValue → Bool
  | .str s => s ≠ ""
  | .num q => q ≠ 0
  | .bool b => b
  | .null => false

/-- Numeric value of a list of decimal digit characters. -/
def natOfDigits (ds : List Char) : ℕ :=
  ds.foldl (fun n c => 10 * n + (c.toNat - 48)) 0

/-- Hexadecimal digit test for `parseInt`'s `0x` form. -/
def isHexDigit (c : Char) : Bool :=
  c.isDigit ∨ ('a' ≤ c ∧ c ≤ 'f') ∨ ('A' ≤ c ∧ c ≤ 'F')

/-- Numeric value of a list of hexadecimal digit characters. -/
def natOfHexDigits (ds : List Char) : ℕ :=
  ds.foldl
    (fun n c =>
      16 * n + (if c.isDigit then c.toNat - 48
                else if 'a' ≤ c ∧ c ≤ 'f' then c.toNat - 87
                else c.toNat - 55))
    0

/-- JavaScript `parseInt(s)` (radix unspecified): skip leading whitespace,
an optional sign, then either an `0x`/`0X` hexadecimal literal or the
longest run of decimal digits; `NaN` (here `none`) when no digit follows.
The model keeps exact integers; the precision loss JS suffers on huge
digit strings is irrelevant to the 1–5 window this program inspects. -/
def jsParseInt (s : String) : Option ℤ :=
  let cs := s.toList.dropWhile jsIsWhitespace
  let sc : ℤ × List Char :=
    match cs with
    | '+' :: r => (1, r)
    | '-' :: r => (-1, r)
    | _ => (1, cs)
  let dec : Option ℤ :=
    let ds := sc.2.takeWhile Char.isDigit
    if ds.isEmpty then none else some (sc.1 * natOfDigits ds)
  match sc.2 with
  | '0' :: x :: r =>
    if x = 'x' ∨ x = 'X' then
      let hs := r.takeWhile isHexDigit
      if hs.isEmpty then none else some (sc.1 * natOfHexDigits hs)
    else dec
  | _ => dec

/-- Exponent suffix of a JavaScript decimal literal (`e`/`E`, optional
sign, digits); an exponent marker without digits is not consumed, as in
`parseFloat("1e") = 1`. -/
def jsExpSuffix (cs : List Char) : ℤ :=
  match cs with
  | 'e' :: r | 'E' :: r =>
    let sc : ℤ × List Char :=
      match r with
      | '+' :: t => (1, t)
      | '-' :: t => (-1, t)
      | _ => (1, r)
    let ds := sc.2.takeWhile Char.isDigit
    if ds.isEmpty then 0 else sc.1 * natOfDigits ds
  | _ => 0

/-- JavaScript `parseFloat(s)`: longest leading decimal literal (sign,
integer digits, optional fraction, optional exponent); `none` models
`NaN`.  The `Infinity` literal is not modelled: it fails the only test
this program applies to the result (the 40000–60000 window) exactly as
`none` does. -/
def jsParseFloat (s : String) : Option ℚ :=
  let cs := s.toList.dropWhile jsIsWhitespace
  let sc : ℚ × List Char :=
    match cs with
    | '+' :: r => (1, r)
    | '-' :: r => (-1, r)
    | _ => (1, cs)
  let ids := sc.2.takeWhile Char.isDigit
  let rest := sc.2.drop ids.length
  match rest with
  | '.' :: r =>
    let fds := r.takeWhile Char.isDigit
    if ids.isEmpty ∧ fds.isEmpty then none
    else
      let e := jsExpSuffix (r.drop fds.length)
      some (sc.1 * ((natOfDigits ids : ℚ) + (natOfDigits fds : ℚ) / 10 ^ fds.length) * 10 ^ e)
  | _ =>
    if ids.isEmpty then none
    else some (sc.1 * (natOfDigits ids : ℚ) * 10 ^ jsExpSuffix rest)

/-- Decimal digits of the fractional part `n / d` (with `n < d`), at most
`fuel` of them.  Used by `jsNumToString`. -/
def fracDigitsAux : ℕ → ℕ → ℕ → List Char
  | 0, _, _ => []
  | fuel + 1, n, d =>
    if n = 0 then []
    else Char.ofNat (48 + 10 * n / d) :: fracDigitsAux fuel (10 * n % d) d

/-- JavaScript number-to-string conversion, exact on integers and on
finite decimal expansions of at most 20 fractional digits (which covers
every value any settled claim feeds through it); the shortest-round-trip
rendering JS applies to other doubles is not reproduced. -/
def jsNumToString (q : ℚ) : String :=
  let sgn := if q < 0 then "-" else ""
  let a := |q|
  let ip := (⌊a⌋).toNat
  let frac := a - (ip : ℚ)
  if frac = 0 then sgn ++ toString ip
  else sgn ++ toString ip ++ "." ++ ⟨fracDigitsAux 20 frac.num.toNat frac.den⟩

/-- JavaScript `String(value)` on a cell value. -/
def jsToString : CellValue → String
  | .str s => s
  | .num q => jsNumToString q
  | .bool b => if b then "true" else "false"
  | .null => "null"

/-- JavaScript `Math.round`: half-up rounding toward positive infinity. -/
def jsRound (q : ℚ) : ℤ :=
  ⌊q + 1 / 2⌋

/-- The priority normalizer `parsePriority` of the import library, line
for line: falsy values and the sentinels `'N/A'`, `'n/a'`, `'-'` map to
`null`; a plain number is inspected directly, anything else goes through
`parseInt(String(value).trim())`; `NaN` and values outside `[1, 5]` map
to `null`. -/
def parsePriority (value : CellValue) : Option ℚ :=
  if ¬ truthy value then none
  else if value = .str ("N/A") ∨ value = .str ("n/a") ∨ value = .str ("-") then none
  else
    let num : Option ℚ :=
      match value with
      | .num q => some q
      | v => (jsParseInt (jsTrim (jsToString v))).map (fun n => (n : ℚ))
    match num with
    | none => none
    | some q => if q < 1 ∨ q > 5 then none else some q

/-- Two-digit zero padding, as in `String(n).padStart(2, '0')`. -/
def pad2 (n : ℕ) : String :=
  if n < 10 then "0" ++ toString n else toString n

/-- The `YYYY-MM-DD` rendering the date normalizer produces (the year is
not padded, month and day are). -/
def ymdString (y m d : ℕ) : String :=
  toString y ++ "-" ++ pad2 m ++ "-" ++ pad2 d

/-- Gregorian leap-year test. -/
def isLeapYear (y : ℕ) : Bool :=
  (y % 4 = 0 ∧ y % 100 ≠ 0) ∨ y % 400 = 0

/-- Length of a Gregorian month. -/
def daysInMonth (y m : ℕ) : ℕ :=
  if m = 2 then (if isLeapYear y then 29 else 28)
  else if m = 4 ∨ m = 6 ∨ m = 9 ∨ m = 11 then 30
  else 31

/-- Day count of a proleptic-Gregorian civil date, measured from
0000-03-01 (the standard era decomposition with years starting in March).
Valid for `1 ≤ y`; this direction is the independent cross-check used to
state epoch-consistency claims. -/
def daysOfCivil (y m d : ℕ) : ℕ :=
  let ys := if m ≤ 2 then y - 1 else y
  let era := ys / 400
  let yoe := ys % 400
  let mp := if 2 < m then m - 3 else m + 9
  let doy := (153 * mp + 2) / 5 + d - 1
  let doe := yoe * 365 + yoe / 4 + doy - yoe / 100
  era * 146097 + doe

/-- Inverse of `daysOfCivil`: the proleptic-Gregorian civil date of a day
count from 0000-03-01.  This is the calendar arithmetic behind
`new Date(1900, 0, 1); d.setDate(d.getDate() + n)` in the serial decoder. -/
def civilOfDays (g : ℕ) : ℕ × ℕ × ℕ :=
  let era := g / 146097
  let doe := g % 146097
  let yoe := (doe - doe / 1460 + doe / 36524 - doe / 146096) / 365
  let y := yoe + era * 400
  let doy := doe - (yoe * 365 + yoe / 4 - yoe / 100)
  let mp := (5 * doy + 2) / 153
  let d := doy - (153 * mp + 2) / 5 + 1
  let m := if mp < 10 then mp + 3 else mp - 9
  if m ≤ 2 then (y + 1, m, d) else (y, m, d)

/-- Day count of 1900-01-01, the anchor the serial decoder counts from. -/
def epoch1900 : ℕ :=
  daysOfCivil 1900 1 1

/-- The `XLSX.SSF.parse_date_code` serial-date decoder, restricted to the
`(y, m, d)` triple the import library reads from it: serials outside
`[0, 2958465]` yield `null`; the fractional part can bump the day at the
midnight boundary; serial 60 is the fictitious 1900-02-29 of the 1900
leap-year bug, serial 0 renders as `(1900, 1, 0)`, and other serials above
60 are shifted down by one before plain Gregorian day arithmetic from
1900-01-01. -/
def parse_date_code (v : ℚ) : Option (ℕ × ℕ × ℕ) :=
  if 2958465 < v ∨ v < 0 then none
  else
    let date : ℤ := ⌊v⌋
    let t0 : ℚ := 86400 * (v - date)
    let time : ℤ := ⌊t0⌋
    let u : ℚ := t0 - time
    let u : ℚ := if |u| < 1 / 1000000 then 0 else u
    let date : ℤ := if 9999 / 10000 < u ∧ time + 1 = 86400 then date + 1 else date
    if date = 60 then some (1900, 2, 29)
    else if date = 0 then some (1900, 1, 0)
    else
      let date := if 60 < date then date - 1 else date
      some (civilOfDays (epoch1900 + ((date - 1).toNat)))

/-- JavaScript `new Date(s)` on an ISO extended date-only literal
`YYYY-MM-DD` (4-2-2 digits), which the ES specification interprets as UTC
midnight and rejects when a component is out of range.  Other literal
formats (which no settled claim exercises) and years before 0001 are
modelled as invalid. -/
def jsDateOnlyParse (s : String) : Option (ℕ × ℕ × ℕ) :=
  match s.toList with
  | [y1, y2, y3, y4, '-', m1, m2, '-', d1, d2] =>
    if (y1.isDigit ∧ y2.isDigit ∧ y3.isDigit ∧ y4.isDigit) ∧
        (m1.isDigit ∧ m2.isDigit) ∧ (d1.isDigit ∧ d2.isDigit) then
      let y := natOfDigits [y1, y2, y3, y4]
      let m := natOfDigits [m1, m2]
      let d := natOfDigits [d1, d2]
      if 1 ≤ y ∧ 1 ≤ m ∧ m ≤ 12 ∧ 1 ≤ d ∧ d ≤ daysInMonth y m then some (y, m, d)
      else none
    else none
  | _ => none

/-- The `new Date(trimmed)` fallback branch of the date normalizer: parse
a calendar date literal (UTC midnight), then read it back through the
local-time accessors of an engine whose zone offset is `tz` minutes east
of UTC. -/
def dateLiteralBranch (tz : ℤ) (s : String) : Option String :=
  match jsDateOnlyParse s with
  | none => none
  | some (y, m, d) =>
    let g := ((daysOfCivil y m d : ℤ) + Int.fdiv (tz * 60) 86400).toNat
    let c := civilOfDays g
    some (ymdString c.1 c.2.1 c.2.2)

/-- The date normalizer `parseExcelDate` of the import library: falsy
values map to `null`; a number goes through the serial decoder; a string
is trimmed, treated as a serial date when it parses as a number strictly
between 40000 and 60000, and otherwise parsed as a calendar date literal;
everything unparsable degrades to `null`.  (The `value instanceof Date`
branch of the source is unreachable here: with `raw: true` and no
`cellDates` the reader never materialises `Date` cells, so `CellValue`
has no such shape.) -/
def parseExcelDate (tz : ℤ) (value : CellValue) : Option String :=
  if ¬ truthy value then none
  else
    match value with
    | .num v =>
      match parse_date_code v with
      | some (y, m, d) => some (ymdString y m d)
      | none => none
    | .str s =>
      let trimmed := jsTrim s
      if trimmed = "" then none
      else
        match jsParseFloat trimmed with
        | some q =>
          if 40000 < q ∧ q < 60000 then
            match parse_date_code q with
            | some (y, m, d) => some (ymdString y m d)
            | none => dateLiteralBranch tz trimmed
          else dateLiteralBranch tz trimmed
        | none => dateLiteralBranch tz trimmed
    | .bool _ => none
    | .null => none

/-- The canonical contact fields of the import schema. -/
inductive ContactField where
  | name | email | phone | location | details | institution
  | last_interaction_date | priority
deriving Repr, DecidableEq

/-- The column-name normalizer of the import library: lower-case, trim,
then delete every run of underscores and whitespace (the regex
`/[_\s]+/g` replaced by the empty string removes the characters
outright). -/
def normalizeColumnName (name : String) : String :=
  ⟨(jsTrim (jsToLower name)).toList.filter (fun c => ¬ (c = '_' ∨ jsIsWhitespace c))⟩

/-- The `columnMappings` synonym table, in source order. -/
def columnMappings : List (String × ContactField) :=
  [("name", .name), ("fullname", .name), ("contactname", .name),
   ("email", .email), ("emailaddress", .email), ("mail", .email),
   ("phone", .phone), ("phonenumber", .phone), ("telephone", .phone),
   ("tel", .phone), ("mobile", .phone),
   ("location", .location), ("city", .location), ("address", .location),
   ("country", .location),
   ("notes", .details), ("details", .details), ("note", .details),
   ("description", .details), ("comments", .details),
   ("institution", .institution), ("company", .institution),
   ("organization", .institution), ("org", .institution),
   ("firm", .institution), ("fund", .institution),
   ("dateoflastinteraction", .last_interaction_date),
   ("date", .last_interaction_date),
   ("lastinteractiondate", .last_interaction_date),
   ("lastcontactdate", .last_interaction_date),
   ("interactiondate", .last_interaction_date),
   ("priority", .priority), ("priorty", .priority),
   ("rank", .priority), ("importance", .priority)]

/-- Resolution of a raw header: `columnMappings[normalizeColumnName(key)]`. -/
def lookupField (header : String) : Option ContactField :=
  (columnMappings.find? (fun p => p.1 = normalizeColumnName header)).map Prod.snd

/-- The `extraNotesColumns` table: headers folded into the notes. -/
def extraNotesColumns : List String :=
  ["lastinteraction", "documentsprovided", "documents"]

/-- A parsed-but-not-yet-persisted contact (`ImportedContact` in the
sources; the Preview Contact of the spec). -/
structure ImportedContact where
  name : String
  email : Option String
  phone : Option String
  location : Option String
  details : Option String
  institution : Option String
  last_interaction_date : Option String
  priority : Option ℚ
deriving Repr, DecidableEq

/-- The all-null contact each row starts from in `mapToContacts`. -/
def initContact : ImportedContact :=
  ⟨"", none, none, none, none, none, none, none⟩

/-- A raw row: the ordered header-to-cell entries `Object.entries(row)`
iterates. -/
def RawRow := List (String × CellValue)

/-- One loop iteration of `mapToContacts`: skip falsy cells, resolve the
header, then dispatch on the resolved field; `details`-like cells and
recognized extra-note headers append to the running note-fragment list
instead of writing a field. -/
def processEntry (tz : ℤ) (st : ImportedContact × List String) (e : String × CellValue) :
    ImportedContact × List String :=
  let (contact, extraNotes) := st
  let (key, value) := e
  if ¬ truthy value then st
  else
    match lookupField key with
    | some .name => ({ contact with name := jsTrim (jsToString value) }, extraNotes)
    | some .last_interaction_date =>
      ({ contact with last_interaction_date := parseExcelDate tz value }, extraNotes)
    | some .priority => ({ contact with priority := parsePriority value }, extraNotes)
    | some .details =>
      let textValue := jsTrim (jsToString value)
      if textValue ≠ "" then (contact, extraNotes ++ [textValue]) else st
    | some .email =>
      let sv := jsTrim (jsToString value)
      ({ contact with email := if sv = "" then none else some sv }, extraNotes)
    | some .phone =>
      let sv := jsTrim (jsToString value)
      ({ contact with phone := if sv = "" then none else some sv }, extraNotes)
    | some .location =>
      let sv := jsTrim (jsToString value)
      ({ contact with location := if sv = "" then none else some sv }, extraNotes)
    | some .institution =>
      let sv := jsTrim (jsToString value)
      ({ contact with institution := if sv = "" then none else some sv }, extraNotes)
    | none =>
      if extraNotesColumns.contains (normalizeColumnName key) then
        let textValue := jsTrim (jsToString value)
        if textValue ≠ "" then (contact, extraNotes ++ [jsTrim key ++ ": " ++ textValue])
        else st
      else st

/-- `Array.prototype.join('\n')` on the note-fragment list. -/
def joinNL : List String → String
  | [] => ""
  | [s] => s
  | s :: r => s ++ "\n" ++ joinNL r

/-- Row normalizer: fold the entries, prepend the `[SheetName]` marker
when the row came from a named sheet of a multi-sheet import, and join
the collected fragments into `details` (absent when none). -/
def mapToContact (tz : ℤ) (sourceSheet : Option String) (row : RawRow) : ImportedContact :=
  let st := row.foldl (processEntry tz) (initContact, [])
  let extraNotes :=
    match sourceSheet with
    | some sheet => ("[" ++ sheet ++ "]") :: st.2
    | none => st.2
  if extraNotes.isEmpty then st.1 else { st.1 with details := some (joinNL extraNotes) }

/-- The `mapToContacts` entry point: one Preview Contact per raw row. -/
def mapToContacts (tz : ℤ) (rawData : List RawRow) (sourceSheet : Option String) :
    List ImportedContact :=
  rawData.map (mapToContact tz sourceSheet)

/-- Specification-side note fragment contributed by a single row entry:
the trimmed text of a truthy `details`-resolving cell, or
`"<original header>: <text>"` for a truthy recognized extra-note cell. -/
def entryFrag (e : String × CellValue) : Option String :=
  if ¬ truthy e.2 then none
  else
    match lookupField e.1 with
    | some .details =>
      let t := jsTrim (jsToString e.2)
      if t ≠ "" then some t else none
    | some _ => none
    | none =>
      if extraNotesColumns.contains (normalizeColumnName e.1) then
        let t := jsTrim (jsToString e.2)
        if t ≠ "" then some (jsTrim e.1 ++ ": " ++ t) else none
      else none

/-- Specification-side description of the note fragments a row
contributes, used to state the accumulation claim: the `entryFrag`
fragments in entry order. -/
def noteFragmentsOf (row : RawRow) : List String :=
  row.filterMap entryFrag

/-- Aggregate result of `importContacts` (`ImportResult` in the sources). -/
structure ImportResult where
  success : Bool
  imported : ℕ
  skipped : ℕ
  errors : List String
deriving Repr, DecidableEq

/-- Fuel-driven worker for `chunksOf`: structural recursion on the fuel,
so that concrete runs reduce inside the kernel. -/
def chunksOfAux (n : ℕ) : ℕ → List α → List (List α)
  | 0, _ => []
  | _ + 1, [] => []
  | fuel + 1, x :: xs => ((x :: xs).take n) :: chunksOfAux n fuel ((x :: xs).drop n)

/-- Consecutive chunks of size `n` (the `slice(i, i + batchSize)` loop);
the fuel starts at the list length, which a positive chunk size never
exhausts. -/
def chunksOf (n : ℕ) (l : List α) : List (List α) :=
  chunksOfAux n l.length l

/-- Partial state coming out of the batch loop of `importContacts`. -/
structure BatchLoopOut where
  imported : ℕ
  skipped : ℕ
  errors : List String
  requests : List (List (String × ImportedContact))
  events : List (String × ℤ)
deriving Repr, DecidableEq

/-- The batch loop of `importContacts` over the already-chunked valid
contacts: `bIdx` is the batch ordinal, so the loop cursor of the source
is `i = 50 * bIdx`; each iteration emits one progress event
(`Math.round` of the fraction of valid rows submitted so far), issues
one insert request tagged with the acting user's id, and on a failed
insert records a batch-indexed error and counts the batch as skipped,
then continues with the next batch. -/
def importLoop (uid : String) (total : ℕ) (insertErr : ℕ → Option String) :
    ℕ → List (List ImportedContact) → BatchLoopOut
  | _, [] => ⟨0, 0, [], [], []⟩
  | bIdx, batch :: rest =>
    let i := 50 * bIdx
    let percent := jsRound ((((i + batch.length : ℕ) : ℚ) / (total : ℚ)) * 100)
    let msg := "Importing contacts " ++ toString (i + 1) ++ " - " ++
      toString (min (i + 50) total) ++ " of " ++ toString total ++ "..."
    let req := batch.map (fun c => (uid, c))
    let tail := importLoop uid total insertErr (bIdx + 1) rest
    match insertErr bIdx with
    | some emsg =>
      ⟨tail.imported, batch.length + tail.skipped,
        ("Batch " ++ toString (bIdx + 1) ++ " failed: " ++ emsg) :: tail.errors,
        req :: tail.requests, (msg, percent) :: tail.events⟩
    | none =>
      ⟨batch.length + tail.imported, tail.skipped, tail.errors,
        req :: tail.requests, (msg, percent) :: tail.events⟩

/-- A whole `importContacts` run: the returned result, the insert
requests actually issued to storage (in order), and the progress events
delivered to the callback. -/
structure ImportRun where
  result : ImportResult
  requests : List (List (String × ImportedContact))
  events : List (String × ℤ)
deriving Repr, DecidableEq

/-- The valid contacts filter of `importContacts`:
`contacts.filter(c => c.name.trim())`. -/
def validOf (contacts : List ImportedContact) : List ImportedContact :=
  contacts.filter (fun c => jsTrim c.name ≠ "")

/-- The import orchestrator `importContacts`: `user` is the result of the
authentication lookup and `insertErr b` the storage outcome of the `b`-th
issued insert request (`none` = success).  No authenticated user and an
all-invalid input fail terminally before any request; otherwise the valid
contacts are written in batches of 50, failures are local to their batch,
the name-less rows are added to `skipped` at the end, and `success` holds
exactly when no batch error was recorded. -/
def importContacts (user : Option String) (contacts : List ImportedContact)
    (insertErr : ℕ → Option String) : ImportRun :=
  match user with
  | none => ⟨⟨false, 0, 0, ["Not authenticated"]⟩, [], []⟩
  | some uid =>
    let validContacts := validOf contacts
    let totalContacts := validContacts.length
    if totalContacts = 0 then
      ⟨⟨false, 0, 0, ["No valid contacts found (name is required)"]⟩, [], []⟩
    else
      let p := importLoop uid totalContacts insertErr 0 (chunksOf 50 validContacts)
      let skipped := p.skipped + (contacts.length - validContacts.length)
      ⟨⟨p.errors.isEmpty, p.imported, skipped, p.errors⟩, p.requests, p.events⟩

/-- Specification-side count of rows in successful batches (`insertErr`
indexed from batch ordinal `k`). -/
def specImported (insertErr : ℕ → Option String) : ℕ → List (List ImportedContact) → ℕ
  | _, [] => 0
  | k, b :: bs =>
    (if (insertErr k).isSome then 0 else b.length) + specImported insertErr (k + 1) bs

/-- Specification-side count of rows in failed batches. -/
def specFailedRows (insertErr : ℕ → Option String) : ℕ → List (List ImportedContact) → ℕ
  | _, [] => 0
  | k, b :: bs =>
    (if (insertErr k).isSome then b.length else 0) + specFailedRows insertErr (k + 1) bs

/-- Specification-side error list: exactly one batch-indexed message per
failed batch, in batch order. -/
def specErrors (insertErr : ℕ → Option String) : ℕ → List (List ImportedContact) → List String
  | _, [] => []
  | k, b :: bs =>
    match insertErr k with
    | some m => ("Batch " ++ toString (k + 1) ++ " failed: " ++ m) :: specErrors insertErr (k + 1) bs
    | none =>
      let _ := b
      specErrors insertErr (k + 1) bs

/-- A sheet entry returned by `getExcelSheets` (`SheetInfo`). -/
structure SheetInfo where
  name : String
  rowCount : ℕ
deriving Repr, DecidableEq

/-- An uploaded workbook: its sheets in enumeration order, each a name
with the raw rows `sheet_to_json` yields for it. -/
def Workbook := List (String × List RawRow)

/-- `getExcelSheets`: enumerate the workbook's sheets, drop any sheet
whose lower-cased name is `definitions`, record each remaining sheet's
data-row count, and keep only sheets with at least one row. -/
def getExcelSheets (wb : Workbook) : List SheetInfo :=
  ((wb.filter (fun s => jsToLower s.1 ≠ "definitions")).map
      (fun s => SheetInfo.mk s.1 s.2.length)).filter
    (fun sheet => 0 < sheet.rowCount)

/-- `parseExcelFile`: rows of the requested sheet, defaulting to the
first non-`definitions` sheet (or the first sheet) when none is named.
A missing sheet contributes no rows. -/
def parseExcelFile (wb : Workbook) (sheetName : Option String) : List RawRow :=
  let targetSheet :=
    match sheetName with
    | some t => t
    | none =>
      match (wb.map Prod.fst).find? (fun n => jsToLower n ≠ "definitions") with
      | some n => n
      | none => ((wb.map Prod.fst).headD (""))
  (wb.lookup targetSheet).getD []

/-- `parseAllSheets`: every non-`definitions` sheet with at least one
row, with its rows, in enumeration order. -/
def parseAllSheets (wb : Workbook) : List (String × List RawRow) :=
  (wb.filter (fun s => jsToLower s.1 ≠ "definitions")).filter (fun s => ¬ s.2.isEmpty)

/-- Outcome of the `ExcelImport` component's `handleFileSelect` step. -/
inductive UIOutcome where
  | uiError (msg : String)
  | preview (contacts : List ImportedContact)
  | selectSheets (sheets : List SheetInfo)
deriving Repr, DecidableEq

/-- `handleFileSelect` after a file passed the type check: list the
sheets; report an error when none qualify; with exactly one qualifying
sheet parse it immediately (no sheet-name marker) and go straight to
preview; otherwise offer the sheet selection. -/
def handleFileSelect (tz : ℤ) (wb : Workbook) : UIOutcome :=
  match getExcelSheets wb with
  | [] => .uiError ("No data sheets found in the file")
  | [s] => .preview (mapToContacts tz (parseExcelFile wb (some s.name)) none)
  | ss => .selectSheets ss

/-- `handleSheetsConfirm`: with a nonempty selection, parse all
qualifying sheets, keep the selected ones, and concatenate their mapped
contacts, each sheet contributing its name as the row marker. -/
def handleSheetsConfirm (tz : ℤ) (wb : Workbook) (selectedSheets : List String) :
    Option (List ImportedContact) :=
  if selectedSheets.isEmpty then none
  else
    let filteredData := (parseAllSheets wb).filter (fun s => selectedSheets.contains s.1)
    some (filteredData.map (fun s => mapToContacts tz s.2 (some s.1))).flatten

/-- A persisted contact row as the export pipeline reads it (`Contact`);
`user_id`, which the export does not touch, is omitted. -/
structure Contact where
  id : String
  name : String
  email : Option String
  phone : Option String
  location : Option String
  details : Option String
  institution : Option String
  last_interaction_date : Option String
  priority : Option ℚ
  created_at : String
  updated_at : String
deriving Repr, DecidableEq

/-- A persisted attachment-metadata row as the export pipeline reads it
(`Attachment`); `user_id`, `file_type` and `file_size`, which the export
does not touch, are omitted. -/
structure Attachment where
  id : String
  contact_id : String
  file_name : String
  file_path : String
  created_at : String
deriving Repr, DecidableEq

/-- `sanitizeName` of the export library: replace the characters illegal
in filesystem paths with `_`, then trim. -/
def sanitizeName (name : String) : String :=
  jsTrim ⟨name.toList.map (fun c =>
    if c ∈ ['<', '>', ':', '"', '/', '\\', '|', '?', '*'] then '_' else c)⟩

/-- Locale-specific date rendering (`toLocaleDateString`) is presentation
only and is not modelled: the formatted cell is represented by the
underlying stored string.  No settled claim reads these cells. -/
def localeDateString (dateString : String) : String :=
  dateString

/-- `formatInteractionDate`: empty cell for an absent date. -/
def formatInteractionDate (dateString : Option String) : String :=
  match dateString with
  | none => ""
  | some d => localeDateString d

/-- One row of the generated `Contacts` worksheet, column for column. -/
structure ExcelRow where
  seq : ℕ
  name : String
  institution : String
  email : String
  phone : String
  location : String
  priority : Option ℚ
  lastInteraction : String
  notes : String
  filesCount : ℕ
  fileNames : String
  created : String
  updated : String
deriving Repr, DecidableEq

/-- `generateExcel` restricted to its data content: one row per contact,
in contact order; `Files Count` is the length of the metadata list and
`File Names` the comma-joined original file names.  (`contact.priority ||
''` blanks a zero as well as a null priority.) -/
def generateExcel (contacts : List (Contact × List Attachment)) : List ExcelRow :=
  contacts.enum.map (fun p =>
    let contact := p.2.1
    let atts := p.2.2
    { seq := p.1 + 1
      name := contact.name
      institution := contact.institution.getD ("")
      email := contact.email.getD ("")
      phone := contact.phone.getD ("")
      location := contact.location.getD ("")
      priority := match contact.priority with
        | some q => if q = 0 then none else some q
        | none => none
      lastInteraction := formatInteractionDate contact.last_interaction_date
      notes := contact.details.getD ("")
      filesCount := atts.length
      fileNames := String.intercalate (", ") (atts.map (fun a => a.file_name))
      created := localeDateString contact.created_at
      updated := localeDateString contact.updated_at })

/-- Content of a file placed in the archive: the generated workbook or a
downloaded binary payload (identified by the blob the storage returned). -/
inductive FileContent where
  | excel (rows : List ExcelRow)
  | blob (data : String)
deriving Repr, DecidableEq

/-- An entry of the archive under construction; a path is its component
list. -/
inductive ZipEntry where
  | folder (path : List String)
  | file (path : List String) (content : FileContent)
deriving Repr, DecidableEq

/-- JSZip `folder(...)`: creating an already-present folder is a no-op. -/
def addFolder (zip : List ZipEntry) (path : List String) : List ZipEntry :=
  if ZipEntry.folder path ∈ zip then zip else zip ++ [.folder path]

/-- Whether an archive entry is a file stored at `path`. -/
def isFileAt (path : List String) : ZipEntry → Bool
  | .file p _ => p = path
  | .folder _ => false

/-- JSZip `file(...)`: a file written at an occupied path replaces the
previous content. -/
def addFile (zip : List ZipEntry) (path : List String) (content : FileContent) :
    List ZipEntry :=
  zip.filter (fun e => ¬ isFileAt path e) ++ [.file path content]

/-- Attachment metadata rows belonging to one contact, as the export
groups them (push order of the `Map` equals filter order). -/
def attsFor (attachments : List Attachment) (c : Contact) : List Attachment :=
  attachments.filter (fun a => a.contact_id = c.id)

/-- A completed `exportAllData` run: the archive entries, the progress
events delivered to the callback, and the archive filename. -/
structure ExportRun where
  zip : List ZipEntry
  events : List (String × ℤ)
  filename : String
deriving Repr, DecidableEq

/-- The inner download loop of `exportAllData` for one contact: `i` is
the contact index, `len` the contact's attachment count, `j` the running
attachment index; each iteration emits a progress event with percent
`Math.round(30 + ((i * len + j) / totalAttachments) * 60)`, then either
skips the file (failed download) or stores it under the contact's folder
with its sanitized name. -/
def downloadFiles (download : String → Option String) (totalAttachments len i : ℕ)
    (contactName folderName : String) :
    ℕ → List Attachment → List ZipEntry × List (String × ℤ) →
    List ZipEntry × List (String × ℤ)
  | _, [], st => st
  | j, a :: rest, (zip, events) =>
    let percent := jsRound (30 + (((i * len + j : ℕ) : ℚ) / (totalAttachments : ℚ)) * 60)
    let events := events ++
      [("Downloading: " ++ a.file_name ++ " (" ++ contactName ++ ")", percent)]
    let zip :=
      match download a.file_path with
      | none => zip
      | some fileData =>
        addFile zip ["Attachments", folderName, sanitizeName a.file_name] (.blob fileData)
    downloadFiles download totalAttachments len i contactName folderName (j + 1) rest (zip, events)

/-- The outer per-contact loop of `exportAllData`: a contact with no
attachment metadata contributes nothing; otherwise its folder (named
from the sanitized contact name) is created under `Attachments` and its
files are downloaded one at a time. -/
def exportContacts (download : String → Option String) (totalAttachments : ℕ) :
    ℕ → List (Contact × List Attachment) → List ZipEntry × List (String × ℤ) →
    List ZipEntry × List (String × ℤ)
  | _, [], st => st
  | i, (contact, atts) :: rest, (zip, events) =>
    if 0 < atts.length then
      let folderName := sanitizeName contact.name
      let zip := addFolder zip ["Attachments", folderName]
      let st := downloadFiles download totalAttachments atts.length i contact.name folderName
        0 atts (zip, events)
      exportContacts download totalAttachments (i + 1) rest st
    else exportContacts download totalAttachments (i + 1) rest (zip, events)

/-- The export orchestrator `exportAllData`: `contacts` and
`attachments` are the fetch results (name-ordered and
created-at-ordered by the storage queries), `download` the per-path
storage outcome, `today` the ISO date embedded in the archive name.
The run fails before any archive work when there are no contacts; the
error path discards the events already emitted, which no settled claim
reads.  Attachment metadata is grouped by owning contact (`Map` push
order equals filter order), the workbook is written at the archive
root, and the `Attachments` tree is only created when at least one
metadata row exists. -/
def exportAllData (contacts : List Contact) (attachments : List Attachment)
    (download : String → Option String) (today : String) : Except String ExportRun :=
  if contacts.isEmpty then .error ("No contacts to export")
  else
    let events := [("Fetching contacts...", (5 : ℤ)), ("Fetching attachments info...", 15)]
    let contactsWithAttachments := contacts.map (fun c => (c, attsFor attachments c))
    let events := events ++ [("Generating Excel file...", 25)]
    let zip := addFile [] ["Contacts.xlsx"] (.excel (generateExcel contactsWithAttachments))
    let totalAttachments := attachments.length
    let st :=
      if 0 < totalAttachments then
        exportContacts download totalAttachments 0 contactsWithAttachments
          (addFolder zip ["Attachments"], events)
      else (zip, events)
    let events := st.2 ++ [("Creating zip file...", 95), ("Download starting...", 100)]
    .ok ⟨st.1, events, "IR_CRM_Backup_" ++ today ++ ".zip"⟩

/-- Specification-side description of the files that end up in one
contact's folder: one blob entry per successfully downloaded attachment,
in metadata order, under the contact's sanitized folder name. -/
def successFiles (download : String → Option String) (folderName : String)
    (atts : List Attachment) : List ZipEntry :=
  atts.filterMap (fun a =>
    (download a.file_path).map (fun d =>
      ZipEntry.file ["Attachments", folderName, sanitizeName a.file_name] (.blob d)))

/-- Specification-side description of the `Attachments` subtree:
contacts in order, each contact with metadata contributing its folder
entry followed by its successfully downloaded files. -/
def zipSegment (download : String → Option String) :
    List (Contact × List Attachment) → List ZipEntry
  | [] => []
  | (contact, atts) :: rest =>
    (if atts.isEmpty then []
     else ZipEntry.folder ["Attachments", sanitizeName contact.name] ::
       successFiles download (sanitizeName contact.name) atts) ++
    zipSegment download rest

/-- Whether an archive entry is a file lying inside the folder
`Attachments/<folderName>`. -/
def isFileUnder (folderName : String) : ZipEntry → Bool
  | .file ("Attachments" :: n :: _ :: _) _ => n = folderName
  | _ => false

/-- Specification-side description of `getExcelSheets`' result: exactly
the sheets whose name is not case-insensitively `definitions` and that
have at least one data row, in enumeration order, with their row counts. -/
def specQualifyingSheets (wb : Workbook) : List SheetInfo :=
  (wb.filter (fun s => jsToLower s.1 ≠ "definitions" ∧ 0 < s.2.length)).map
    (fun s => SheetInfo.mk s.1 s.2.length)

/-- A preview contact carrying only a name (used by concrete scenarios). -/
def namedContact (s : String) : ImportedContact :=
  { initContact with name := s }

/-- A 120-row all-valid input for the batching scenario. -/
def contacts120 : List ImportedContact :=
  List.replicate 120 (namedContact ("Ada"))

/-- Insert outcome making exactly the second batch (ordinal 1) fail. -/
def failSecondBatch : ℕ → Option String :=
  fun b => if b = 1 then some ("insert failed") else none

/-- Export scenario contact with one attachment. -/
def c2ContactA : Contact :=
  ⟨"c1", "Alice", none, none, none, none, none, none, none, "t1", "t1"⟩

/-- Export scenario contact with five attachments. -/
def c2ContactB : Contact :=
  ⟨"c2", "Bob", none, none, none, none, none, none, none, "t1", "t1"⟩

/-- Six attachment metadata rows: one for the first contact, five for the
second. -/
def c2Attachments : List Attachment :=
  [⟨"a1", "c1", "f1.pdf", "p1", "t"⟩,
   ⟨"a2", "c2", "g1.pdf", "q1", "t"⟩, ⟨"a3", "c2", "g2.pdf", "q2", "t"⟩,
   ⟨"a4", "c2", "g3.pdf", "q3", "t"⟩, ⟨"a5", "c2", "g4.pdf", "q4", "t"⟩,
   ⟨"a6", "c2", "g5.pdf", "q5", "t"⟩]

/-- Export witness scenario: contact with two attachments. -/
def w7ContactA : Contact :=
  ⟨"k1", "Ann", none, none, none, none, none, none, none, "t1", "t1"⟩

/-- Export witness scenario: contact with no attachments. -/
def w7ContactB : Contact :=
  ⟨"k2", "Ben", none, none, none, none, none, none, none, "t1", "t1"⟩

/-- Export witness scenario: two metadata rows, both owned by the first
contact. -/
def w7Attachments : List Attachment :=
  [⟨"b1", "k1", "one.pdf", "w1", "t"⟩, ⟨"b2", "k1", "two.pdf", "w2", "t"⟩]

/-- Export witness scenario: the second download fails. -/
def w7Download : String → Option String :=
  fun p => if p = "w2" then none else some ("payload")

/-- Percent components of an export run's progress events (empty for the
error outcome, whose events no claim reads). -/
def exportEventPercents (r : Except String ExportRun) : List ℤ :=
  match r with
  | .ok run => run.events.map Prod.snd
  | .error _ => []

/-- Whether a percent sequence is non-decreasing, as the progress
interface promises. -/
def nonDecreasingZ : List ℤ → Bool
  | a :: b :: r => (a ≤ b) && nonDecreasingZ (b :: r)
  | _ => true

/-! Helper lemmas shared by the claim theorems. -/

/-- One loop iteration of `mapToContacts` appends exactly the fragment
`entryFrag` describes to the running note list. -/
lemma processEntry_snd (tz : ℤ) (st : ImportedContact × List String) (e : String × CellValue) :
    (processEntry tz st e).2 = st.2 ++ (entryFrag e).toList := by
  obtain ⟨c, notes⟩ := st
  obtain ⟨k, v⟩ := e
  by_cases hv : truthy v
  · cases hf : lookupField k with
    | none =>
      by_cases hc : normalizeColumnName k ∈ extraNotesColumns
      · by_cases ht : jsTrim (jsToString v) = "" <;>
          simp [processEntry, entryFrag, hv, hf, hc, ht]
      · simp [processEntry, entryFrag, hv, hf, hc]
    | some fld =>
      cases fld <;>
        (by_cases ht : jsTrim (jsToString v) = "" <;>
          simp [processEntry, entryFrag, hv, hf, ht])
  · simp [processEntry, entryFrag, hv]

/-- One loop iteration of `mapToContacts` never writes the `details`
field of the contact under construction. -/
lemma processEntry_details (tz : ℤ) (st : ImportedContact × List String)
    (e : String × CellValue) :
    (processEntry tz st e).1.details = st.1.details := by
  obtain ⟨c, notes⟩ := st
  obtain ⟨k, v⟩ := e
  by_cases hv : truthy v
  · cases hf : lookupField k with
    | none =>
      by_cases hc : normalizeColumnName k ∈ extraNotesColumns
      · by_cases ht : jsTrim (jsToString v) = "" <;>
          simp [processEntry, hv, hf, hc, ht]
      · simp [processEntry, hv, hf, hc]
    | some fld =>
      cases fld <;>
        (by_cases ht : jsTrim (jsToString v) = "" <;>
          simp [processEntry, hv, hf, ht])
  · simp [processEntry, hv]

/-- The entry fold of `mapToContacts` accumulates exactly
`noteFragmentsOf row`, in order, behind whatever was already collected. -/
lemma foldl_processEntry_snd (tz : ℤ) (row : RawRow) :
    ∀ st : ImportedContact × List String,
      (row.foldl (processEntry tz) st).2 = st.2 ++ noteFragmentsOf row := by
  induction row with
  | nil => intro st; simp [noteFragmentsOf]
  | cons e r ih =>
    intro st
    simp only [List.foldl_cons, noteFragmentsOf, List.filterMap_cons]
    cases hf : entryFrag e with
    | none =>
      have := ih (processEntry tz st e)
      rw [this, processEntry_snd, hf]
      simp [noteFragmentsOf]
    | some frag =>
      have := ih (processEntry tz st e)
      rw [this, processEntry_snd, hf]
      simp [noteFragmentsOf]

/-- The entry fold of `mapToContacts` leaves the `details` field of the
accumulated contact untouched. -/
lemma foldl_processEntry_details (tz : ℤ) (row : RawRow) :
    ∀ st : ImportedContact × List String,
      (row.foldl (processEntry tz) st).1.details = st.1.details := by
  induction row with
  | nil => intro st; simp
  | cons e r ih =>
    intro st
    simp only [List.foldl_cons]
    rw [ih (processEntry tz st e), processEntry_details]

/-- Closed form of the `details` field produced by the row normalizer:
the sheet marker (when present) followed by the row's note fragments,
joined by newline; absent when there are no fragments. -/
lemma mapToContact_details (tz : ℤ) (sourceSheet : Option String) (row : RawRow) :
    (mapToContact tz sourceSheet row).details =
      (match sourceSheet with
        | some sheet =>
          some (joinNL (("[" ++ sheet ++ "]") :: noteFragmentsOf row))
        | none =>
          if (noteFragmentsOf row).isEmpty then none
          else some (joinNL (noteFragmentsOf row))) := by
  have hsnd2 : (List.foldl (processEntry tz) (initContact, []) row).2 = noteFragmentsOf row := by
    simp [foldl_processEntry_snd]
  have hdet2 : (List.foldl (processEntry tz) (initContact, []) row).1.details = none := by
    simpa [initContact] using foldl_processEntry_details tz row (initContact, [])
  cases sourceSheet with
  | none =>
    by_cases h : noteFragmentsOf row = []
    · simp [mapToContact, hsnd2, hdet2, h]
    · simp [mapToContact, hsnd2, h]
  | some sheet => simp [mapToContact, hsnd2]

/-- `joinNL` of a nonempty list starts with its head. -/
lemma joinNL_cons_ex (m : String) (fs : List String) :
    ∃ r, joinNL (m :: fs) = m ++ r := by
  cases fs with
  | nil => exact ⟨"", by simp [joinNL]⟩
  | cons g gs =>
    exact ⟨"\n" ++ joinNL (g :: gs), by simp [joinNL, String.append_assoc]⟩

/-- The fuel argument of `chunksOfAux` is irrelevant above the list
length. -/
lemma chunksOfAux_congr (n : ℕ) :
    ∀ (f1 f2 : ℕ) (l : List α), l.length ≤ f1 → l.length ≤ f2 →
      chunksOfAux (n + 1) f1 l = chunksOfAux (n + 1) f2 l := by
  intro f1
  induction f1 with
  | zero =>
    intro f2 l h1 h2
    have hl : l = [] := List.eq_nil_of_length_eq_zero (Nat.le_zero.mp h1)
    subst hl
    cases f2 <;> simp [chunksOfAux]
  | succ g ih =>
    intro f2 l h1 h2
    cases l with
    | nil => cases f2 <;> simp [chunksOfAux]
    | cons x xs =>
      cases f2 with
      | zero => simp at h2
      | succ g2 =>
        simp only [chunksOfAux]
        congr 1
        apply ih
        · simp only [List.length_drop, List.length_cons]
          simp only [List.length_cons] at h1
          omega
        · simp only [List.length_drop, List.length_cons]
          simp only [List.length_cons] at h2
          omega

/-- One-step unfolding of `chunksOf` on a nonempty list. -/
lemma chunksOf_cons_eq (n : ℕ) (x : α) (xs : List α) :
    chunksOf (n + 1) (x :: xs) =
      ((x :: xs).take (n + 1)) :: chunksOf (n + 1) ((x :: xs).drop (n + 1)) := by
  unfold chunksOf
  simp only [List.length_cons, chunksOfAux]
  congr 1
  apply chunksOfAux_congr
  · simp only [List.length_drop, List.length_cons]
    omega
  · exact Nat.le_refl _

/-- `chunksOf` is empty exactly on the empty list (positive chunk size). -/
lemma chunksOf_eq_nil_iff (n : ℕ) (l : List α) :
    chunksOf (n + 1) l = [] ↔ l = [] := by
  cases l with
  | nil => simp [chunksOf, chunksOfAux]
  | cons x xs => rw [chunksOf_cons_eq]; simp

/-- The chunks concatenate back to the original list. -/
theorem chunksOf_flatten (n : ℕ) : ∀ l : List α, (chunksOf (n + 1) l).flatten = l
  | [] => by simp [chunksOf, chunksOfAux]
  | x :: xs => by
    rw [chunksOf_cons_eq]
    simp only [List.flatten_cons]
    rw [chunksOf_flatten n ((x :: xs).drop (n + 1)), List.take_append_drop]
termination_by l => l.length
decreasing_by
  simp only [List.length_drop, List.length_cons]
  omega

/-- Every chunk is nonempty and no larger than the chunk size. -/
theorem chunksOf_mem_bounds (n : ℕ) :
    ∀ l : List α, ∀ b ∈ chunksOf (n + 1) l, b ≠ [] ∧ b.length ≤ n + 1
  | [] => by simp [chunksOf, chunksOfAux]
  | x :: xs => by
    rw [chunksOf_cons_eq]
    intro b hb
    rcases List.mem_cons.mp hb with h | h
    · subst h
      constructor
      · simp
      · exact List.length_take_le (n + 1) (x :: xs)
    · exact chunksOf_mem_bounds n ((x :: xs).drop (n + 1)) b h
termination_by l => l.length
decreasing_by
  simp only [List.length_drop, List.length_cons]
  omega

/-- Every chunk except possibly the last has exactly the chunk size. -/
theorem chunksOf_full (n : ℕ) :
    ∀ l : List α, ∀ i : ℕ, i + 1 < (chunksOf (n + 1) l).length →
      ((chunksOf (n + 1) l).getD i []).length = n + 1
  | [] => by simp [chunksOf, chunksOfAux]
  | x :: xs => by
    rw [chunksOf_cons_eq]
    intro i hi
    cases i with
    | zero =>
      simp only [List.length_cons] at hi
      have hrest : chunksOf (n + 1) ((x :: xs).drop (n + 1)) ≠ [] := by
        intro hnil
        rw [hnil] at hi
        exact (Nat.lt_irrefl 1) hi
      have hdrop : (x :: xs).drop (n + 1) ≠ [] := by
        intro hnil
        exact hrest (by rw [hnil]; simp [chunksOf, chunksOfAux])
      have hlen : n + 1 ≤ (x :: xs).length := by
        have := List.length_pos.mpr hdrop
        simp only [List.length_drop] at this
        omega
      simpa using List.length_take_of_le hlen
    | succ j =>
      simp only [List.length_cons] at hi
      exact chunksOf_full n ((x :: xs).drop (n + 1)) j (by omega)
termination_by l => l.length
decreasing_by
  simp only [List.length_drop, List.length_cons]
  omega

/-- The batch loop imports exactly the rows of the successful batches. -/
lemma importLoop_imported (uid : String) (total : ℕ) (insertErr : ℕ → Option String) :
    ∀ (bs : List (List ImportedContact)) (k : ℕ),
      (importLoop uid total insertErr k bs).imported = specImported insertErr k bs := by
  intro bs
  induction bs with
  | nil => intro k; simp [importLoop, specImported]
  | cons b rest ih =>
    intro k
    cases h : insertErr k <;> simp [importLoop, specImported, h, ih]

/-- The batch loop skips exactly the rows of the failed batches. -/
lemma importLoop_skipped (uid : String) (total : ℕ) (insertErr : ℕ → Option String) :
    ∀ (bs : List (List ImportedContact)) (k : ℕ),
      (importLoop uid total insertErr k bs).skipped = specFailedRows insertErr k bs := by
  intro bs
  induction bs with
  | nil => intro k; simp [importLoop, specFailedRows]
  | cons b rest ih =>
    intro k
    cases h : insertErr k <;> simp [importLoop, specFailedRows, h, ih]

/-- The batch loop records exactly one batch-indexed error per failed
batch, in order. -/
lemma importLoop_errors (uid : String) (total : ℕ) (insertErr : ℕ → Option String) :
    ∀ (bs : List (List ImportedContact)) (k : ℕ),
      (importLoop uid total insertErr k bs).errors = specErrors insertErr k bs := by
  intro bs
  induction bs with
  | nil => intro k; simp [importLoop, specErrors]
  | cons b rest ih =>
    intro k
    cases h : insertErr k <;> simp [importLoop, specErrors, h, ih]

/-- The batch loop issues one insert request per batch — also past a
failed batch — each tagged with the acting user and carrying the batch's
rows. -/
lemma importLoop_requests (uid : String) (total : ℕ) (insertErr : ℕ → Option String) :
    ∀ (bs : List (List ImportedContact)) (k : ℕ),
      (importLoop uid total insertErr k bs).requests =
        bs.map (fun b => b.map (fun c => (uid, c))) := by
  intro bs
  induction bs with
  | nil => intro k; simp [importLoop]
  | cons b rest ih =>
    intro k
    cases h : insertErr k <;> simp [importLoop, h, ih]

/-- Every batch row is counted exactly once, as imported or as skipped. -/
lemma specImported_add_specFailedRows (insertErr : ℕ → Option String) :
    ∀ (bs : List (List ImportedContact)) (k : ℕ),
      specImported insertErr k bs + specFailedRows insertErr k bs =
        (bs.map List.length).sum := by
  intro bs
  induction bs with
  | nil => intro k; simp [specImported, specFailedRows]
  | cons b rest ih =>
    intro k
    cases h : insertErr k <;>
      simp [specImported, specFailedRows, h, ← ih (k + 1)] <;> omega

/-- The error list has exactly one entry per failed batch ordinal. -/
lemma specErrors_length (insertErr : ℕ → Option String) :
    ∀ (bs : List (List ImportedContact)) (k : ℕ),
      (specErrors insertErr k bs).length =
        (List.range bs.length).countP (fun j => (insertErr (k + j)).isSome) := by
  intro bs
  induction bs with
  | nil => intro k; simp [specErrors]
  | cons b rest ih =>
    intro k
    rw [List.length_cons, List.range_succ_eq_map]
    rw [List.countP_cons, List.countP_map]
    cases h : insertErr k with
    | none =>
      simp only [specErrors, h]
      rw [ih (k + 1)]
      simp only [Nat.add_zero, h, Option.isSome_none]
      have : (fun j => (insertErr (k + 1 + j)).isSome) =
          ((fun j => (insertErr (k + j)).isSome) ∘ Nat.succ) := by
        funext j
        simp only [Function.comp]
        have e : k + 1 + j = k + Nat.succ j := by omega
        rw [e]
      rw [this]
      simp
    | some m =>
      simp only [specErrors, h, List.length_cons]
      rw [ih (k + 1)]
      simp only [Nat.add_zero, h, Option.isSome_some]
      have : (fun j => (insertErr (k + 1 + j)).isSome) =
          ((fun j => (insertErr (k + j)).isSome) ∘ Nat.succ) := by
        funext j
        simp only [Function.comp]
        have e : k + 1 + j = k + Nat.succ j := by omega
        rw [e]
      rw [this]
      simp [Nat.add_comm]

/-- Inside the serial window the decoder always yields a date triple. -/
lemma parse_date_code_isSome (q : ℚ) (h0 : 0 ≤ q) (h1 : q ≤ 2958465) :
    (parse_date_code q).isSome := by
  have hcond : ¬ (2958465 < q ∨ q < 0) := by
    push_neg
    exact ⟨h1, h0⟩
  unfold parse_date_code
  rw [if_neg hcond]
  dsimp only
  split_ifs <;> simp

/-- C3: evaluation of the priority normalizer at the failing input `2.5`
(a fractional numeric cell): the value is passed through unchanged even
though it is not an integer of `{1, 2, 3, 4, 5}`, contradicting the
1–5-integer invariant the spec (and the repository's own schema
constraint `priority INTEGER CHECK (priority >= 1 AND priority <= 5)`)
states for the field. -/
theorem c3_parsePriority_fractional_eval :
    parsePriority (.num (mkRat 5 2)) = some (mkRat 5 2) ∧
    ((mkRat 5 2) ∉ ([1, 2, 3, 4, 5] : List ℚ)) ∧
    (mkRat 5 2).den = 2 := by
  refine ⟨by with_unfolding_all decide, by with_unfolding_all decide, by decide⟩

/-- C2: evaluation of the export pipeline at the failing input (a
one-attachment contact followed by a five-attachment contact, all
downloads succeeding): the progress percents are
`5, 15, 25, 30, 80, 90, 100, 110, 120, 95, 100` — the sweep formula
`30 + ((i * len + j) / total) * 60` exceeds 100 and then falls back to
95, so the sequence is neither bounded by 100 nor non-decreasing. -/
theorem c2_export_progress_eval :
    exportEventPercents (exportAllData [c2ContactA, c2ContactB] c2Attachments
        (fun _ => some ("blob")) ("2026-10-12")) =
      [5, 15, 25, 30, 80, 90, 100, 110, 120, 95, 100] ∧
    nonDecreasingZ [5, 15, 25, 30, 80, 90, 100, 110, 120, 95, 100] = false ∧
    ([(5 : ℤ), 15, 25, 30, 80, 90, 100, 110, 120, 95, 100].all
        (fun p => 0 ≤ p ∧ p ≤ 100)) = false := by
  refine ⟨by with_unfolding_all decide, by decide, by decide⟩

/-- C4 counterexample: in an engine whose local time zone is behind UTC
(here UTC-5, `tz = -300` minutes), the calendar-literal branch parses
`"2024-03-15"` at UTC midnight but reads it back in local time, yielding
the previous day — not `"2024-03-15"` as the claim states. -/
theorem c4_date_literal_counterexample :
    parseExcelDate (-300) (.str ("2024-03-15")) = some ("2024-03-14") ∧
    parseExcelDate (-300) (.str ("2024-03-15")) ≠ some ("2024-03-15") := by
  exact ⟨by with_unfolding_all decide, by with_unfolding_all decide⟩

/-- C4 (amended): the date normalizer is total by construction; serial
45000 decodes to 2023-03-15, which is consistent with the 1900 epoch by
the independent day-count check; serial 60 reproduces the 1900
leap-year quirk; a trimmed string parsing as a number strictly between
40000 and 60000 is decoded exactly like the numeric serial; and in an
engine whose zone offset is at or ahead of UTC the literal
`"2024-03-15"` round-trips while `"not a date"` yields nothing. -/
theorem c4_parseExcelDate_amended (tz : ℤ) (htz0 : 0 ≤ tz) (htz1 : tz < 1440) :
    parseExcelDate tz (.num 45000) = some ("2023-03-15") ∧
    daysOfCivil 2023 3 15 = daysOfCivil 1900 1 1 + 44998 ∧
    parseExcelDate tz (.num 60) = some ("1900-02-29") ∧
    (∀ (s : String) (q : ℚ), jsTrim s ≠ "" → jsParseFloat (jsTrim s) = some q →
      40000 < q → q < 60000 →
      parseExcelDate tz (.str s) = parseExcelDate tz (.num q)) ∧
    parseExcelDate tz (.str ("2024-03-15")) = some ("2024-03-15") ∧
    parseExcelDate tz (.str ("not a date")) = none := by
  obtain ⟨n, rfl⟩ := Int.eq_ofNat_of_zero_le htz0
  have hn : n < 1440 := by exact_mod_cast htz1
  refine ⟨by with_unfolding_all rfl, by decide, by with_unfolding_all rfl, ?_,
    ?_, by with_unfolding_all rfl⟩
  · intro s q hs hq h40 h60
    have hs0 : s ≠ "" := by
      intro h
      exact hs (by rw [h]; rfl)
    have htr : truthy (.str s) = true := by simp [truthy, hs0]
    have hq0 : truthy (.num q) = true := by
      have : q ≠ 0 := by
        intro h
        rw [h] at h40
        norm_num at h40
      simp [truthy, this]
    have hpdc := parse_date_code_isSome q (by linarith) (by linarith)
    obtain ⟨ymd, hymd⟩ := Option.isSome_iff_exists.mp hpdc
    obtain ⟨y, md⟩ := ymd
    obtain ⟨m, d⟩ := md
    simp only [parseExcelDate, htr, hq0, hs, hq, hymd, if_pos (And.intro h40 h60)]
    simp
  · have hfd : Int.fdiv ((n : ℤ) * 60) 86400 = 0 := by
      rw [Int.fdiv_eq_ediv _ (by norm_num)]
      exact Int.ediv_eq_zero_of_lt (by positivity) (by omega)
    have hred : parseExcelDate (n : ℤ) (.str ("2024-03-15")) =
        dateLiteralBranch (n : ℤ) ("2024-03-15") := by with_unfolding_all rfl
    rw [hred]
    unfold dateLiteralBranch
    have h1 : jsDateOnlyParse ("2024-03-15") = some (2024, 3, 15) := rfl
    rw [h1, hfd]
    rfl

/-- C4 (amended) witness at the UTC environment `tz = 0`. -/
theorem c4_parseExcelDate_amended_witness :
    ((0 : ℤ) ≤ 0 ∧ (0 : ℤ) < 1440) ∧
      (parseExcelDate 0 (.num 45000) = some ("2023-03-15") ∧
       daysOfCivil 2023 3 15 = daysOfCivil 1900 1 1 + 44998 ∧
       parseExcelDate 0 (.num 60) = some ("1900-02-29") ∧
       (∀ (s : String) (q : ℚ), jsTrim s ≠ "" → jsParseFloat (jsTrim s) = some q →
         40000 < q → q < 60000 →
         parseExcelDate 0 (.str s) = parseExcelDate 0 (.num q)) ∧
       parseExcelDate 0 (.str ("2024-03-15")) = some ("2024-03-15") ∧
       parseExcelDate 0 (.str ("not a date")) = none) :=
  ⟨⟨by decide, by decide⟩, c4_parseExcelDate_amended 0 (by decide) (by decide)⟩

/-- C5: the row normalizer yields exactly one Preview Contact per raw
row; its `details` field is the newline-join of the ordered note
fragments — the `[SheetName]` marker first when a source sheet is given,
then one fragment per detail-like or recognized extra-note column (the
latter labelled with the original, untrimmed-case header text) — and is
absent when no fragments were collected; the concrete row shows two
detail columns and an extra-note column accumulating instead of
overwriting one another. -/
theorem c5_row_normalizer_details (tz : ℤ) (sourceSheet : Option String)
    (rows : List RawRow) (row : RawRow) :
    (mapToContacts tz rows sourceSheet).length = rows.length ∧
    mapToContacts tz [row] sourceSheet = [mapToContact tz sourceSheet row] ∧
    ((mapToContact tz sourceSheet row).details =
      (match sourceSheet with
        | some sheet => some (joinNL (("[" ++ sheet ++ "]") :: noteFragmentsOf row))
        | none =>
          if (noteFragmentsOf row).isEmpty then none
          else some (joinNL (noteFragmentsOf row)))) ∧
    (mapToContact 0 (some ("Sheet1"))
        [("Notes", .str (" a ")), ("Description", .str ("b")),
         ("Documents Provided", .str ("x.pdf"))]).details =
      some ("[Sheet1]\na\nb\nDocuments Provided: x.pdf") := by
  refine ⟨by simp [mapToContacts], rfl, mapToContact_details tz sourceSheet row, by decide⟩

/-- C6: header resolution goes through exact lookup on the normalized
key, so headers equal up to normalization resolve identically;
`"  Full_Name "` and `"fullname"` both resolve to the `name` field; and
the row `{Name: "Jane Doe", Company: "Acme", Priorty: "2"}` (with the
recognized misspelling) maps to the expected contact. -/
theorem c6_column_mapper (tz : ℤ) :
    (∀ h1 h2 : String, normalizeColumnName h1 = normalizeColumnName h2 →
      lookupField h1 = lookupField h2) ∧
    lookupField ("  Full_Name ") = some .name ∧
    lookupField ("fullname") = some .name ∧
    mapToContacts tz [[("Name", .str ("Jane Doe")), ("Company", .str ("Acme")),
        ("Priorty", .str ("2"))]] none =
      [⟨"Jane Doe", none, none, none, none, some ("Acme"), none, some 2⟩] := by
  refine ⟨?_, by decide, by decide, rfl⟩
  intro h1 h2 he
  unfold lookupField
  rw [he]

/-- C6 witness: the two concrete headers have equal normalizations, and
the theorem instantiates to equal resolutions for them. -/
theorem c6_column_mapper_witness :
    normalizeColumnName ("  Full_Name ") = normalizeColumnName ("fullname") ∧
      lookupField ("  Full_Name ") = lookupField ("fullname") :=
  ⟨by decide, (c6_column_mapper 0).1 ("  Full_Name ") ("fullname") (by decide)⟩

/-- Closed form of an authenticated `importContacts` run with at least
one valid row, in terms of the specification-side accounting functions. -/
lemma importContacts_valid_spec (uid : String) (contacts : List ImportedContact)
    (insertErr : ℕ → Option String) (h : (validOf contacts).length ≠ 0) :
    importContacts (some uid) contacts insertErr =
      ⟨⟨(specErrors insertErr 0 (chunksOf 50 (validOf contacts))).isEmpty,
        specImported insertErr 0 (chunksOf 50 (validOf contacts)),
        specFailedRows insertErr 0 (chunksOf 50 (validOf contacts)) +
          (contacts.length - (validOf contacts).length),
        specErrors insertErr 0 (chunksOf 50 (validOf contacts))⟩,
        (chunksOf 50 (validOf contacts)).map (fun b => b.map (fun c => (uid, c))),
        (importLoop uid (validOf contacts).length insertErr 0
          (chunksOf 50 (validOf contacts))).events⟩ := by
  simp [importContacts, h, importLoop_imported, importLoop_skipped, importLoop_errors,
    importLoop_requests]

set_option maxRecDepth 8000 in
/-- C1: under an authenticated user with at least one valid-name row,
the valid rows are partitioned into consecutive nonempty batches of at
most 50 rows, all but the last of exactly 50; `imported` counts the
rows of the successful batches, `skipped` the rows of the failed
batches plus the name-less rows, the error list holds exactly one
batch-indexed message per failed batch, one insert request is issued
per batch (processing continues past failures), and success holds
exactly when no error was recorded.  The 120-valid-row instance yields
batches of 50, 50 and 20; with exactly the second insert failing the
result is `imported = 70`, `skipped = 50`, `success = false`, with the
single error message naming batch 2. -/
theorem c1_import_batching :
    (∀ (uid : String) (contacts : List ImportedContact) (insertErr : ℕ → Option String),
      validOf contacts ≠ [] →
      ((chunksOf 50 (validOf contacts)).flatten = validOf contacts ∧
       (∀ b ∈ chunksOf 50 (validOf contacts), b ≠ [] ∧ b.length ≤ 50) ∧
       (∀ i : ℕ, i + 1 < (chunksOf 50 (validOf contacts)).length →
         ((chunksOf 50 (validOf contacts)).getD i []).length = 50) ∧
       (importContacts (some uid) contacts insertErr).result.imported =
         specImported insertErr 0 (chunksOf 50 (validOf contacts)) ∧
       (importContacts (some uid) contacts insertErr).result.skipped =
         specFailedRows insertErr 0 (chunksOf 50 (validOf contacts)) +
           (contacts.length - (validOf contacts).length) ∧
       (importContacts (some uid) contacts insertErr).result.errors =
         specErrors insertErr 0 (chunksOf 50 (validOf contacts)) ∧
       (importContacts (some uid) contacts insertErr).result.errors.length =
         (List.range (chunksOf 50 (validOf contacts)).length).countP
           (fun j => (insertErr j).isSome) ∧
       (importContacts (some uid) contacts insertErr).requests =
         (chunksOf 50 (validOf contacts)).map (fun b => b.map (fun c => (uid, c))) ∧
       (importContacts (some uid) contacts insertErr).result.success =
         (importContacts (some uid) contacts insertErr).result.errors.isEmpty)) ∧
    ((chunksOf 50 (validOf contacts120)).map List.length = [50, 50, 20] ∧
     (importContacts (some ("u1")) contacts120 failSecondBatch).result =
       ⟨false, 70, 50, ["Batch 2 failed: insert failed"]⟩) := by
  constructor
  · intro uid contacts insertErr hvalid
    have hlen : (validOf contacts).length ≠ 0 := fun hl => hvalid (List.length_eq_zero.mp hl)
    have hflat : (chunksOf 50 (validOf contacts)).flatten = validOf contacts :=
      chunksOf_flatten 49 _
    have hbound : ∀ b ∈ chunksOf 50 (validOf contacts), b ≠ [] ∧ b.length ≤ 50 :=
      chunksOf_mem_bounds 49 _
    have hfull : ∀ i : ℕ, i + 1 < (chunksOf 50 (validOf contacts)).length →
        ((chunksOf 50 (validOf contacts)).getD i []).length = 50 :=
      chunksOf_full 49 _
    rw [importContacts_valid_spec uid contacts insertErr hlen]
    refine ⟨hflat, hbound, hfull, rfl, rfl, rfl, ?_, rfl, rfl⟩
    simpa using specErrors_length insertErr (chunksOf 50 (validOf contacts)) 0
  · exact ⟨by decide, by decide⟩

/-- C1 witness at a one-row input with no insert failure. -/
theorem c1_import_batching_witness :
    validOf [namedContact ("Bo")] ≠ [] ∧
      (importContacts (some ("u")) [namedContact ("Bo")] (fun _ => none)).result.imported =
        specImported (fun _ => none) 0 (chunksOf 50 (validOf [namedContact ("Bo")])) := by
  refine ⟨by decide, ?_⟩
  exact (c1_import_batching.1 ("u") [namedContact ("Bo")] (fun _ => none) (by decide)).2.2.2.1

/-- C9: `importContacts` fails terminally, with no insert request issued
and `imported = 0`, in exactly two cases — no authenticated user
(`Not authenticated`) and no row with a non-empty trimmed name
(`No valid contacts found`); in every other run at least one insert
request is issued. -/
theorem c9_import_terminal_cases :
    (∀ (contacts : List ImportedContact) (insertErr : ℕ → Option String),
      importContacts none contacts insertErr =
        ⟨⟨false, 0, 0, ["Not authenticated"]⟩, [], []⟩) ∧
    (∀ (uid : String) (contacts : List ImportedContact) (insertErr : ℕ → Option String),
      validOf contacts = [] →
      importContacts (some uid) contacts insertErr =
        ⟨⟨false, 0, 0, ["No valid contacts found (name is required)"]⟩, [], []⟩) ∧
    (∀ (user : Option String) (contacts : List ImportedContact)
        (insertErr : ℕ → Option String),
      (importContacts user contacts insertErr).requests = [] ↔
        (user = none ∨ validOf contacts = [])) := by
  refine ⟨fun contacts insertErr => rfl, ?_, ?_⟩
  · intro uid contacts insertErr h
    simp [importContacts, h]
  · intro user contacts insertErr
    cases user with
    | none => simp [importContacts]
    | some uid =>
      by_cases h : validOf contacts = []
      · simp [importContacts, h]
      · have hlen : (validOf contacts).length ≠ 0 := fun hl => h (List.length_eq_zero.mp hl)
        rw [importContacts_valid_spec uid contacts insertErr hlen]
        dsimp only
        constructor
        · intro hreq
          exfalso
          exact h ((chunksOf_eq_nil_iff 49 (validOf contacts)).mp (List.map_eq_nil_iff.mp hreq))
        · rintro (h1 | h2)
          · exact absurd h1 (by simp)
          · exact absurd h2 h

/-- C9 witness: an all-name-less input fails terminally with no request. -/
theorem c9_import_terminal_witness :
    validOf [namedContact ("")] = [] ∧
      importContacts (some ("u")) [namedContact ("")] (fun _ => none) =
        ⟨⟨false, 0, 0, ["No valid contacts found (name is required)"]⟩, [], []⟩ :=
  ⟨by decide, c9_import_terminal_cases.2.1 ("u") [namedContact ("")] (fun _ => none) (by decide)⟩

/-- C10: whenever an authenticated run has at least one valid-name row,
every input row is accounted exactly once — `imported + skipped` equals
the input length — and `success` holds exactly when the error list is
empty. -/
theorem c10_import_row_accounting (uid : String) (contacts : List ImportedContact)
    (insertErr : ℕ → Option String) (hvalid : validOf contacts ≠ []) :
    (importContacts (some uid) contacts insertErr).result.imported +
      (importContacts (some uid) contacts insertErr).result.skipped = contacts.length ∧
    ((importContacts (some uid) contacts insertErr).result.success = true ↔
      (importContacts (some uid) contacts insertErr).result.errors = []) := by
  have hlen : (validOf contacts).length ≠ 0 := fun hl => hvalid (List.length_eq_zero.mp hl)
  rw [importContacts_valid_spec uid contacts insertErr hlen]
  dsimp only
  constructor
  · have hsum := specImported_add_specFailedRows insertErr (chunksOf 50 (validOf contacts)) 0
    have h1 : (chunksOf 50 (validOf contacts)).flatten = validOf contacts :=
      chunksOf_flatten 49 _
    have h2 : ((chunksOf 50 (validOf contacts)).map List.length).sum =
        (validOf contacts).length := by
      rw [← List.length_flatten, h1]
    have hv : (validOf contacts).length ≤ contacts.length := List.length_filter_le _ _
    omega
  · simp [List.isEmpty_iff]

/-- C10 witness at a mixed two-row input. -/
theorem c10_import_row_accounting_witness :
    validOf [namedContact ("Cy"), namedContact ("")] ≠ [] ∧
      ((importContacts (some ("u")) [namedContact ("Cy"), namedContact ("")]
          (fun _ => none)).result.imported +
        (importContacts (some ("u")) [namedContact ("Cy"), namedContact ("")]
          (fun _ => none)).result.skipped =
        [namedContact ("Cy"), namedContact ("")].length ∧
       ((importContacts (some ("u")) [namedContact ("Cy"), namedContact ("")]
          (fun _ => none)).result.success = true ↔
        (importContacts (some ("u")) [namedContact ("Cy"), namedContact ("")]
          (fun _ => none)).result.errors = [])) :=
  ⟨by decide, c10_import_row_accounting ("u") [namedContact ("Cy"), namedContact ("")]
    (fun _ => none) (by decide)⟩

/-- The archive component of the per-contact download loop is a fold of
conditional `addFile` steps over the attachment list. -/
lemma downloadFiles_fst (download : String → Option String) (total len i : ℕ)
    (cname fname : String) :
    ∀ (atts : List Attachment) (j : ℕ) (zip : List ZipEntry) (events : List (String × ℤ)),
      (downloadFiles download total len i cname fname j atts (zip, events)).1 =
        atts.foldl (fun z a =>
          match download a.file_path with
          | none => z
          | some fileData =>
            addFile z ["Attachments", fname, sanitizeName a.file_name] (.blob fileData)) zip := by
  intro atts
  induction atts with
  | nil => intro j zip events; rfl
  | cons a rest ih =>
    intro j zip events
    cases hd : download a.file_path <;>
      simp only [downloadFiles, List.foldl_cons, hd, ih]

/-- Every entry `successFiles` describes is a file under the folder. -/
lemma successFiles_shape (download : String → Option String) (fname : String) :
    ∀ atts, ∀ e ∈ successFiles download fname atts,
      ∃ (a : Attachment) (fileData : String),
        e = ZipEntry.file ["Attachments", fname, sanitizeName a.file_name]
          (.blob fileData) := by
  intro atts
  induction atts with
  | nil => simp [successFiles]
  | cons a rest ih =>
    intro e he
    simp only [successFiles, List.filterMap_cons] at he
    cases hd : download a.file_path with
    | none =>
      rw [hd] at he
      simp only [Option.map_none'] at he
      exact ih e he
    | some fileData =>
      rw [hd] at he
      simp only [Option.map_some'] at he
      rcases List.mem_cons.mp he with h | h
      · exact ⟨a, fileData, h⟩
      · exact ih e h

/-- With fresh, pairwise-distinct file paths, the `addFile` fold appends
exactly the successfully downloaded files. -/
lemma foldl_addFile_eq_append (download : String → Option String) (fname : String) :
    ∀ (atts : List Attachment) (zip : List ZipEntry),
      (∀ a ∈ atts, ∀ e ∈ zip,
        ¬ isFileAt ["Attachments", fname, sanitizeName a.file_name] e) →
      List.Pairwise (fun a b => sanitizeName a.file_name ≠ sanitizeName b.file_name) atts →
      atts.foldl (fun z a =>
        match download a.file_path with
        | none => z
        | some fileData =>
          addFile z ["Attachments", fname, sanitizeName a.file_name] (.blob fileData)) zip =
        zip ++ successFiles download fname atts := by
  intro atts
  induction atts with
  | nil => intro zip habs hpw; simp [successFiles]
  | cons a rest ih =>
    intro zip habs hpw
    cases hd : download a.file_path with
    | none =>
      simp only [List.foldl_cons, hd, successFiles, List.filterMap_cons, Option.map_none']
      rw [ih zip (fun b hb e he => habs b (List.mem_cons_of_mem a hb) e he)
        (List.Pairwise.of_cons hpw)]
      rfl
    | some fileData =>
      simp only [List.foldl_cons, hd, successFiles, List.filterMap_cons, Option.map_some']
      have hnew : addFile zip ["Attachments", fname, sanitizeName a.file_name]
          (.blob fileData) =
          zip ++ [ZipEntry.file ["Attachments", fname, sanitizeName a.file_name]
            (.blob fileData)] := by
        unfold addFile
        congr 1
        rw [List.filter_eq_self]
        intro e he
        simpa using habs a (List.mem_cons_self a rest) e he
      rw [hnew]
      have habs2 : ∀ b ∈ rest,
          ∀ e ∈ zip ++ [ZipEntry.file ["Attachments", fname, sanitizeName a.file_name]
            (.blob fileData)],
          ¬ isFileAt ["Attachments", fname, sanitizeName b.file_name] e := by
        intro b hb e he
        rcases List.mem_append.mp he with h | h
        · exact habs b (List.mem_cons_of_mem a hb) e h
        · rw [List.mem_singleton.mp h]
          have hne : sanitizeName a.file_name ≠ sanitizeName b.file_name :=
            (List.pairwise_cons.mp hpw).1 b hb
          simp [isFileAt, hne]
      rw [ih _ habs2 (List.Pairwise.of_cons hpw)]
      simp [successFiles, List.append_assoc]

/-- With pairwise-distinct folder names fresh relative to the archive so
far, the per-contact export loop appends exactly the `zipSegment`
description of the `Attachments` subtree. -/
lemma exportContacts_fst (download : String → Option String) (total : ℕ) :
    ∀ (cwa : List (Contact × List Attachment)) (i : ℕ) (zip : List ZipEntry)
      (events : List (String × ℤ)),
      List.Pairwise (fun p q => sanitizeName p.1.name ≠ sanitizeName q.1.name) cwa →
      (∀ p ∈ cwa, List.Pairwise
        (fun a b => sanitizeName a.file_name ≠ sanitizeName b.file_name) p.2) →
      (∀ p ∈ cwa, ZipEntry.folder ["Attachments", sanitizeName p.1.name] ∉ zip) →
      (∀ p ∈ cwa, ∀ e ∈ zip, ¬ isFileUnder (sanitizeName p.1.name) e) →
      (exportContacts download total i cwa (zip, events)).1 =
        zip ++ zipSegment download cwa := by
  intro cwa
  induction cwa with
  | nil => intro i zip events _ _ _ _; simp [exportContacts, zipSegment]
  | cons p rest ih =>
    intro i zip events hpw hfiles hfolders hunder
    obtain ⟨c, atts⟩ := p
    by_cases hatts : 0 < atts.length
    · have hne : atts.isEmpty = false := by
        cases atts with
        | nil => simp at hatts
        | cons x xs => rfl
      have hfold : addFolder zip ["Attachments", sanitizeName c.name] =
          zip ++ [ZipEntry.folder ["Attachments", sanitizeName c.name]] := by
        unfold addFolder
        rw [if_neg (hfolders (c, atts) (List.mem_cons_self _ _))]
      have hstep : exportContacts download total i ((c, atts) :: rest) (zip, events) =
          exportContacts download total (i + 1) rest
            (downloadFiles download total atts.length i c.name (sanitizeName c.name) 0 atts
              (addFolder zip ["Attachments", sanitizeName c.name], events)) := by
        simp [exportContacts, hatts]
      rw [hstep, hfold]
      have hmain : ∀ st : List ZipEntry × List (String × ℤ),
          st.1 = (zip ++ [ZipEntry.folder ["Attachments", sanitizeName c.name]]) ++
            successFiles download (sanitizeName c.name) atts →
          (exportContacts download total (i + 1) rest st).1 =
            zip ++ zipSegment download ((c, atts) :: rest) := by
        intro st hst
        have hfolders2 : ∀ q ∈ rest,
            ZipEntry.folder ["Attachments", sanitizeName q.1.name] ∉ st.1 := by
          intro q hq hmem
          rw [hst] at hmem
          rcases List.mem_append.mp hmem with h | h
          · rcases List.mem_append.mp h with h2 | h2
            · exact hfolders q (List.mem_cons_of_mem _ hq) h2
            · have h3 := List.mem_singleton.mp h2
              have hne2 : sanitizeName c.name ≠ sanitizeName q.1.name :=
                (List.pairwise_cons.mp hpw).1 q hq
              simp only [ZipEntry.folder.injEq, List.cons.injEq] at h3
              exact hne2 h3.2.1.symm
          · obtain ⟨a, fileData, hshape⟩ :=
              successFiles_shape download (sanitizeName c.name) atts _ h
            simp at hshape
        have hunder2 : ∀ q ∈ rest, ∀ e ∈ st.1,
            ¬ isFileUnder (sanitizeName q.1.name) e := by
          intro q hq e he
          rw [hst] at he
          rcases List.mem_append.mp he with h | h
          · rcases List.mem_append.mp h with h2 | h2
            · exact hunder q (List.mem_cons_of_mem _ hq) e h2
            · rw [List.mem_singleton.mp h2]
              simp [isFileUnder]
          · obtain ⟨a, fileData, hshape⟩ :=
              successFiles_shape download (sanitizeName c.name) atts e h
            rw [hshape]
            have hne2 : sanitizeName c.name ≠ sanitizeName q.1.name :=
              (List.pairwise_cons.mp hpw).1 q hq
            simp [isFileUnder, hne2]
        have hrec : (exportContacts download total (i + 1) rest (st.1, st.2)).1 =
            st.1 ++ zipSegment download rest :=
          ih (i + 1) st.1 st.2 (List.Pairwise.of_cons hpw)
            (fun q hq => hfiles q (List.mem_cons_of_mem _ hq)) hfolders2 hunder2
        calc (exportContacts download total (i + 1) rest st).1
            = st.1 ++ zipSegment download rest := hrec
          _ = zip ++ zipSegment download ((c, atts) :: rest) := by
              rw [hst]
              simp [zipSegment, hne, List.append_assoc]
      apply hmain
      rw [downloadFiles_fst]
      have habs : ∀ a ∈ atts,
          ∀ e ∈ zip ++ [ZipEntry.folder ["Attachments", sanitizeName c.name]],
          ¬ isFileAt ["Attachments", sanitizeName c.name, sanitizeName a.file_name] e := by
        intro a ha e he
        rcases List.mem_append.mp he with h | h
        · intro hfa
          apply hunder (c, atts) (List.mem_cons_self _ _) e h
          cases e with
          | folder _ => simp [isFileAt] at hfa
          | file pth cont =>
            simp only [isFileAt, decide_eq_true_eq] at hfa
            rw [hfa]
            simp [isFileUnder]
        · rw [List.mem_singleton.mp h]
          simp [isFileAt]
      exact foldl_addFile_eq_append download (sanitizeName c.name) atts _ habs
        (hfiles (c, atts) (List.mem_cons_self _ _))
    · have hempty : atts = [] := by
        cases atts with
        | nil => rfl
        | cons x xs => simp at hatts
      subst hempty
      have hstep : exportContacts download total i ((c, []) :: rest) (zip, events) =
          exportContacts download total (i + 1) rest (zip, events) := by
        simp [exportContacts]
      rw [hstep, ih (i + 1) zip events (List.Pairwise.of_cons hpw)
        (fun q hq => hfiles q (List.mem_cons_of_mem _ hq))
        (fun q hq => hfolders q (List.mem_cons_of_mem _ hq))
        (fun q hq => hunder q (List.mem_cons_of_mem _ hq))]
      simp [zipSegment]

/-- No folder entry appears among the success files. -/
lemma successFiles_filter_folder (download : String → Option String) (fname : String)
    (atts : List Attachment) (path : List String) :
    (successFiles download fname atts).filter
      (fun e => e = ZipEntry.folder path) = [] := by
  rw [List.filter_eq_nil_iff]
  intro e he
  obtain ⟨a, fileData, hshape⟩ := successFiles_shape download fname atts e he
  simp [hshape]

/-- The success files of a contact's own folder all lie under it. -/
lemma successFiles_filter_under_self (download : String → Option String) (s : String)
    (atts : List Attachment) :
    (successFiles download s atts).filter (isFileUnder s) =
      successFiles download s atts := by
  rw [List.filter_eq_self]
  intro e he
  obtain ⟨a, fileData, hshape⟩ := successFiles_shape download s atts e he
  simp [hshape, isFileUnder]

/-- The success files of another contact's folder lie outside this one. -/
lemma successFiles_filter_under_ne (download : String → Option String) (fname s : String)
    (hne : fname ≠ s) (atts : List Attachment) :
    (successFiles download fname atts).filter (isFileUnder s) = [] := by
  rw [List.filter_eq_nil_iff]
  intro e he
  obtain ⟨a, fileData, hshape⟩ := successFiles_shape download fname atts e he
  simp [hshape, isFileUnder, hne]

/-- A folder name used by no contact of the segment does not occur in it. -/
lemma zipSegment_filter_folder_ne (download : String → Option String) (s : String) :
    ∀ cwa : List (Contact × List Attachment),
      (∀ p ∈ cwa, sanitizeName p.1.name ≠ s) →
      (zipSegment download cwa).filter
        (fun e => e = ZipEntry.folder ["Attachments", s]) = [] := by
  intro cwa
  induction cwa with
  | nil => intro _; simp [zipSegment]
  | cons p rest ih =>
    intro h
    obtain ⟨c, atts⟩ := p
    have hhd : sanitizeName c.name ≠ s := h (c, atts) (List.mem_cons_self _ _)
    have hrest := ih (fun q hq => h q (List.mem_cons_of_mem _ hq))
    simp only [zipSegment, List.filter_append, hrest, List.append_nil]
    by_cases he : atts.isEmpty
    · simp [he]
    · simp only [he, if_neg, Bool.false_eq_true, ite_false, List.filter_cons]
      rw [successFiles_filter_folder]
      simp [hhd]

/-- A file-bearing folder name used by no contact of the segment holds no
files in it. -/
lemma zipSegment_filter_under_ne (download : String → Option String) (s : String) :
    ∀ cwa : List (Contact × List Attachment),
      (∀ p ∈ cwa, sanitizeName p.1.name ≠ s) →
      (zipSegment download cwa).filter (isFileUnder s) = [] := by
  intro cwa
  induction cwa with
  | nil => intro _; simp [zipSegment]
  | cons p rest ih =>
    intro h
    obtain ⟨c, atts⟩ := p
    have hhd : sanitizeName c.name ≠ s := h (c, atts) (List.mem_cons_self _ _)
    have hrest := ih (fun q hq => h q (List.mem_cons_of_mem _ hq))
    simp only [zipSegment, List.filter_append, hrest, List.append_nil]
    by_cases he : atts.isEmpty
    · simp [he]
    · simp only [he, if_neg, Bool.false_eq_true, ite_false, List.filter_cons]
      rw [successFiles_filter_under_ne download _ s hhd]
      simp [isFileUnder]

/-- With pairwise-distinct folder names, the segment holds exactly one
folder entry for a contact with attachments and none for a contact
without. -/
lemma zipSegment_filter_folder (download : String → Option String) (s : String) :
    ∀ cwa : List (Contact × List Attachment),
      List.Pairwise (fun p q => sanitizeName p.1.name ≠ sanitizeName q.1.name) cwa →
      ∀ p0 ∈ cwa, sanitizeName p0.1.name = s →
      (zipSegment download cwa).filter
        (fun e => e = ZipEntry.folder ["Attachments", s]) =
        (if p0.2.isEmpty then [] else [ZipEntry.folder ["Attachments", s]]) := by
  intro cwa
  induction cwa with
  | nil => intro _ p0 h0; simp at h0
  | cons p rest ih =>
    intro hpw p0 hp0 hs
    obtain ⟨c, atts⟩ := p
    rcases List.mem_cons.mp hp0 with h | h
    · subst h
      simp only at hs
      have hrest : (zipSegment download rest).filter
          (fun e => e = ZipEntry.folder ["Attachments", s]) = [] := by
        apply zipSegment_filter_folder_ne
        intro q hq
        rw [← hs]
        exact ((List.pairwise_cons.mp hpw).1 q hq).symm
      simp only [zipSegment, List.filter_append, hrest, List.append_nil]
      by_cases he : atts.isEmpty
      · simp [he]
      · simp only [he, if_neg, Bool.false_eq_true, ite_false, List.filter_cons]
        rw [successFiles_filter_folder]
        simp [hs]
    · have hhd : sanitizeName c.name ≠ s := by
        rw [← hs]
        exact (List.pairwise_cons.mp hpw).1 p0 h
      have hrest := ih (List.Pairwise.of_cons hpw) p0 h hs
      simp only [zipSegment, List.filter_append, hrest]
      by_cases he : atts.isEmpty
      · simp [he]
      · simp only [he, if_neg, Bool.false_eq_true, ite_false, List.filter_cons]
        rw [successFiles_filter_folder]
        simp [hhd]

/-- With pairwise-distinct folder names, the files lying under a
contact's folder are exactly its successfully downloaded attachments. -/
lemma zipSegment_filter_under (download : String → Option String) (s : String) :
    ∀ cwa : List (Contact × List Attachment),
      List.Pairwise (fun p q => sanitizeName p.1.name ≠ sanitizeName q.1.name) cwa →
      ∀ p0 ∈ cwa, sanitizeName p0.1.name = s →
      (zipSegment download cwa).filter (isFileUnder s) =
        successFiles download s p0.2 := by
  intro cwa
  induction cwa with
  | nil => intro _ p0 h0; simp at h0
  | cons p rest ih =>
    intro hpw p0 hp0 hs
    obtain ⟨c, atts⟩ := p
    rcases List.mem_cons.mp hp0 with h | h
    · subst h
      simp only at hs
      have hrest : (zipSegment download rest).filter (isFileUnder s) = [] := by
        apply zipSegment_filter_under_ne
        intro q hq
        rw [← hs]
        exact ((List.pairwise_cons.mp hpw).1 q hq).symm
      simp only [zipSegment, List.filter_append, hrest, List.append_nil]
      by_cases he : atts.isEmpty
      · have : atts = [] := by
          cases atts with
          | nil => rfl
          | cons x xs => simp at he
        subst this
        simp [successFiles]
      · simp only [he, if_neg, Bool.false_eq_true, ite_false, List.filter_cons]
        rw [← hs, successFiles_filter_under_self]
        simp [isFileUnder]
    · have hhd : sanitizeName c.name ≠ s := by
        rw [← hs]
        exact (List.pairwise_cons.mp hpw).1 p0 h
      have hrest := ih (List.Pairwise.of_cons hpw) p0 h hs
      simp only [zipSegment, List.filter_append, hrest]
      by_cases he : atts.isEmpty
      · simp [he]
      · simp only [he, if_neg, Bool.false_eq_true, ite_false, List.filter_cons]
        rw [successFiles_filter_under_ne download _ s hhd]
        simp [isFileUnder]

/-- The `Files Count` column of the generated worksheet reproduces the
attachment-metadata count of each contact, row by row. -/
lemma generateExcel_filesCount (cs : List (Contact × List Attachment)) :
    (generateExcel cs).map (fun row => row.filesCount) = cs.map (fun p => p.2.length) := by
  unfold generateExcel
  rw [List.map_map]
  conv_rhs => rw [← List.enum_map_snd cs, List.map_map]
  apply List.map_congr_left
  intro a _
  rfl

/-- C7: for any download outcome (including partial failure) the archive
is produced; the worksheet at the archive root lists, per contact, the
metadata count in `Files Count` independently of which binaries were
retrieved; a contact with at least one metadata row owns exactly one
subfolder named from its sanitized name, a contact without owns none;
and the files inside a contact's subfolder are exactly its successfully
downloaded attachments, so a single failed download only loses that
file.  Sanitized contact names are assumed pairwise distinct, as are
each contact's sanitized file names — otherwise the JSZip path space
collapses entries. -/
theorem c7_export_archive (contacts : List Contact) (attachments : List Attachment)
    (download : String → Option String) (today : String)
    (hne : contacts ≠ [])
    (hnames : List.Pairwise (fun c d => sanitizeName c.name ≠ sanitizeName d.name) contacts)
    (hfiles : ∀ c ∈ contacts, List.Pairwise
      (fun a b => sanitizeName a.file_name ≠ sanitizeName b.file_name)
      (attsFor attachments c)) :
    ∃ r : ExportRun, exportAllData contacts attachments download today = .ok r ∧
      ZipEntry.file ["Contacts.xlsx"]
        (.excel (generateExcel (contacts.map (fun c => (c, attsFor attachments c))))) ∈
        r.zip ∧
      (generateExcel (contacts.map (fun c => (c, attsFor attachments c)))).map
        (fun row => row.filesCount) =
        contacts.map (fun c => (attsFor attachments c).length) ∧
      (∀ c ∈ contacts,
        r.zip.filter (fun e => e = ZipEntry.folder ["Attachments", sanitizeName c.name]) =
          (if (attsFor attachments c).isEmpty then []
           else [ZipEntry.folder ["Attachments", sanitizeName c.name]])) ∧
      (∀ c ∈ contacts,
        r.zip.filter (isFileUnder (sanitizeName c.name)) =
          successFiles download (sanitizeName c.name) (attsFor attachments c)) := by
  have hie : contacts.isEmpty = false := by
    cases contacts with
    | nil => exact absurd rfl hne
    | cons x xs => rfl
  have hcount : (generateExcel (contacts.map (fun c => (c, attsFor attachments c)))).map
      (fun row => row.filesCount) =
      contacts.map (fun c => (attsFor attachments c).length) := by
    rw [generateExcel_filesCount, List.map_map]
    rfl
  have hpwcwa : List.Pairwise (fun p q => sanitizeName p.1.name ≠ sanitizeName q.1.name)
      (contacts.map (fun c => (c, attsFor attachments c))) := by
    rw [List.pairwise_map]
    exact hnames
  have hfilescwa : ∀ p ∈ contacts.map (fun c => (c, attsFor attachments c)),
      List.Pairwise (fun a b => sanitizeName a.file_name ≠ sanitizeName b.file_name) p.2 := by
    intro p hp
    obtain ⟨c, hc, hp2⟩ := List.mem_map.mp hp
    subst hp2
    exact hfiles c hc
  by_cases htot : 0 < attachments.length
  · have hzip0 : addFolder (addFile [] ["Contacts.xlsx"]
        (.excel (generateExcel (contacts.map (fun c => (c, attsFor attachments c))))))
        ["Attachments"] =
        [ZipEntry.file ["Contacts.xlsx"]
          (.excel (generateExcel (contacts.map (fun c => (c, attsFor attachments c))))),
         ZipEntry.folder ["Attachments"]] := by
      simp [addFile, addFolder]
    have hloop := exportContacts_fst download attachments.length
      (contacts.map (fun c => (c, attsFor attachments c))) 0
      [ZipEntry.file ["Contacts.xlsx"]
        (.excel (generateExcel (contacts.map (fun c => (c, attsFor attachments c))))),
       ZipEntry.folder ["Attachments"]]
      [("Fetching contacts...", (5 : ℤ)), ("Fetching attachments info...", 15),
       ("Generating Excel file...", 25)]
      hpwcwa hfilescwa
      (by
        intro p hp hmem
        rcases List.mem_cons.mp hmem with h | h
        · exact absurd h (by simp)
        · rcases List.mem_cons.mp h with h2 | h2
          · exact absurd h2 (by simp)
          · simp at h2)
      (by
        intro p hp e he
        rcases List.mem_cons.mp he with h | h
        · rw [h]; simp [isFileUnder]
        · rcases List.mem_cons.mp h with h2 | h2
          · rw [h2]; simp [isFileUnder]
          · simp at h2)
    refine ⟨⟨(exportContacts download attachments.length 0
        (contacts.map (fun c => (c, attsFor attachments c)))
        (addFolder (addFile [] ["Contacts.xlsx"]
          (.excel (generateExcel (contacts.map (fun c => (c, attsFor attachments c))))))
          ["Attachments"],
         [("Fetching contacts...", (5 : ℤ)), ("Fetching attachments info...", 15),
          ("Generating Excel file...", 25)])).1,
      (exportContacts download attachments.length 0
        (contacts.map (fun c => (c, attsFor attachments c)))
        (addFolder (addFile [] ["Contacts.xlsx"]
          (.excel (generateExcel (contacts.map (fun c => (c, attsFor attachments c))))))
          ["Attachments"],
         [("Fetching contacts...", (5 : ℤ)), ("Fetching attachments info...", 15),
          ("Generating Excel file...", 25)])).2 ++
        [("Creating zip file...", 95), ("Download starting...", 100)],
      "IR_CRM_Backup_" ++ today ++ ".zip"⟩, ?_, ?_, hcount, ?_, ?_⟩
    · simp only [exportAllData, hie, Bool.false_eq_true, if_false, htot, if_pos]
      rfl
    · show ZipEntry.file ["Contacts.xlsx"] _ ∈
        (exportContacts download attachments.length 0 _ _).1
      rw [hzip0, hloop]
      exact List.mem_append_left _ (List.mem_cons_self _ _)
    · intro c hc
      show (exportContacts download attachments.length 0 _ _).1.filter _ = _
      rw [hzip0, hloop, List.filter_append]
      have hbase : ([ZipEntry.file ["Contacts.xlsx"]
          (.excel (generateExcel (contacts.map (fun c => (c, attsFor attachments c))))),
          ZipEntry.folder ["Attachments"]]).filter
          (fun e => e = ZipEntry.folder ["Attachments", sanitizeName c.name]) = [] := by
        simp
      rw [hbase, List.nil_append]
      exact zipSegment_filter_folder download (sanitizeName c.name) _ hpwcwa
        (c, attsFor attachments c) (List.mem_map.mpr ⟨c, hc, rfl⟩) rfl
    · intro c hc
      show (exportContacts download attachments.length 0 _ _).1.filter _ = _
      rw [hzip0, hloop, List.filter_append]
      have hbase : ([ZipEntry.file ["Contacts.xlsx"]
          (.excel (generateExcel (contacts.map (fun c => (c, attsFor attachments c))))),
          ZipEntry.folder ["Attachments"]]).filter
          (isFileUnder (sanitizeName c.name)) = [] := by
        simp [isFileUnder]
      rw [hbase, List.nil_append]
      exact zipSegment_filter_under download (sanitizeName c.name) _ hpwcwa
        (c, attsFor attachments c) (List.mem_map.mpr ⟨c, hc, rfl⟩) rfl
  · have hatts : attachments = [] := by
      cases attachments with
      | nil => rfl
      | cons x xs => simp at htot
    subst hatts
    have hfor : ∀ c : Contact, attsFor ([] : List Attachment) c = [] := fun c => rfl
    refine ⟨⟨[ZipEntry.file ["Contacts.xlsx"]
        (.excel (generateExcel (contacts.map (fun c => (c, attsFor ([] : List Attachment) c)))))],
      [("Fetching contacts...", (5 : ℤ)), ("Fetching attachments info...", 15),
       ("Generating Excel file...", 25), ("Creating zip file...", 95),
       ("Download starting...", 100)],
      "IR_CRM_Backup_" ++ today ++ ".zip"⟩, ?_, ?_, hcount, ?_, ?_⟩
    · simp [exportAllData, hie, addFile]
    · exact List.mem_cons_self _ _
    · intro c hc
      simp [hfor]
    · intro c hc
      simp [hfor, isFileUnder, successFiles]

/-- C7 witness: two contacts — two metadata rows on the first, none on
the second — with the second download failing. -/
theorem c7_export_archive_witness :
    (([w7ContactA, w7ContactB] : List Contact) ≠ [] ∧
     List.Pairwise (fun c d => sanitizeName c.name ≠ sanitizeName d.name)
       [w7ContactA, w7ContactB] ∧
     (∀ c ∈ [w7ContactA, w7ContactB], List.Pairwise
       (fun a b => sanitizeName a.file_name ≠ sanitizeName b.file_name)
       (attsFor w7Attachments c))) ∧
    (∃ r : ExportRun,
      exportAllData [w7ContactA, w7ContactB] w7Attachments w7Download ("2026-10-12") =
        .ok r ∧
      ZipEntry.file ["Contacts.xlsx"]
        (.excel (generateExcel ([w7ContactA, w7ContactB].map
          (fun c => (c, attsFor w7Attachments c))))) ∈ r.zip ∧
      (generateExcel ([w7ContactA, w7ContactB].map
          (fun c => (c, attsFor w7Attachments c)))).map (fun row => row.filesCount) =
        [w7ContactA, w7ContactB].map (fun c => (attsFor w7Attachments c).length) ∧
      (∀ c ∈ ([w7ContactA, w7ContactB] : List Contact),
        r.zip.filter (fun e => e = ZipEntry.folder ["Attachments", sanitizeName c.name]) =
          (if (attsFor w7Attachments c).isEmpty then []
           else [ZipEntry.folder ["Attachments", sanitizeName c.name]])) ∧
      (∀ c ∈ ([w7ContactA, w7ContactB] : List Contact),
        r.zip.filter (isFileUnder (sanitizeName c.name)) =
          successFiles w7Download (sanitizeName c.name) (attsFor w7Attachments c))) :=
  ⟨⟨by decide, by decide, by decide⟩,
   c7_export_archive [w7ContactA, w7ContactB] w7Attachments w7Download ("2026-10-12")
     (by decide) (by decide) (by decide)⟩

/-- C8: sheet discovery returns exactly the sheets that are not
case-insensitively named `definitions` and have at least one data row,
in enumeration order with their row counts; a single qualifying sheet is
parsed directly into the preview with no sheet selection and no sheet
marker; and a confirmed multi-sheet selection concatenates the selected
qualifying sheets, the combined preview size being the sum of their row
counts with every contact carrying its sheet's bracketed marker at the
head of `details`. -/
theorem c8_sheet_discovery (tz : ℤ) :
    (∀ wb : Workbook, getExcelSheets wb = specQualifyingSheets wb) ∧
    (∀ (wb : Workbook) (s : SheetInfo), getExcelSheets wb = [s] →
      handleFileSelect tz wb =
        .preview (mapToContacts tz (parseExcelFile wb (some s.name)) none)) ∧
    (∀ (wb : Workbook) (selected : List String) (cs : List ImportedContact),
      handleSheetsConfirm tz wb selected = some cs →
      (cs.length =
        (((parseAllSheets wb).filter (fun s => selected.contains s.1)).map
          (fun s => s.2.length)).sum ∧
       ∀ c ∈ cs, ∃ (sheet : String) (rows : List RawRow) (row : RawRow) (rest : String),
         (sheet, rows) ∈ parseAllSheets wb ∧ selected.contains sheet ∧ row ∈ rows ∧
         c = mapToContact tz (some sheet) row ∧
         c.details = some ("[" ++ sheet ++ "]" ++ rest))) := by
  refine ⟨?_, ?_, ?_⟩
  · intro wb
    unfold getExcelSheets specQualifyingSheets
    rw [List.filter_map, List.filter_filter]
    congr 1
    apply List.filter_congr
    intro a _
    simp [Function.comp, Bool.and_comm]
  · intro wb s h
    simp [handleFileSelect, h]
  · intro wb selected cs h
    unfold handleSheetsConfirm at h
    by_cases hsel : selected.isEmpty
    · rw [if_pos hsel] at h
      exact absurd h (by simp)
    · rw [if_neg hsel] at h
      have hcs : cs = (((parseAllSheets wb).filter (fun s => selected.contains s.1)).map
          (fun s => mapToContacts tz s.2 (some s.1))).flatten := (Option.some_inj.mp h).symm
      subst hcs
      constructor
      · rw [List.length_flatten, List.map_map]
        congr 1
        apply List.map_congr_left
        intro s _
        simp [mapToContacts]
      · intro c hc
        obtain ⟨l, hl, hcl⟩ := List.mem_flatten.mp hc
        obtain ⟨sh, hsh, hleq⟩ := List.mem_map.mp hl
        rw [← hleq] at hcl
        obtain ⟨row, hrow, hrc⟩ := List.mem_map.mp hcl
        have hmem := List.mem_filter.mp hsh
        obtain ⟨rest, hrest⟩ := joinNL_cons_ex ("[" ++ sh.1 ++ "]") (noteFragmentsOf row)
        refine ⟨sh.1, sh.2, row, rest, hmem.1, by simpa using hmem.2, hrow, hrc.symm, ?_⟩
        rw [← hrc, mapToContact_details tz (some sh.1) row]
        simp [hrest]

/-- C8 witness: a workbook with a reserved `Definitions` sheet and one
data sheet goes straight to the preview of that sheet. -/
theorem c8_sheet_discovery_witness :
    getExcelSheets [(("Definitions" : String), [[(("Name" : String), CellValue.str ("X"))]]),
        ("Data", [[("Name", CellValue.str ("Jane"))]])] = [⟨"Data", 1⟩] ∧
      handleFileSelect 0 [(("Definitions" : String), [[(("Name" : String), CellValue.str ("X"))]]),
          ("Data", [[("Name", CellValue.str ("Jane"))]])] =
        .preview (mapToContacts 0
          (parseExcelFile [(("Definitions" : String), [[(("Name" : String), CellValue.str ("X"))]]),
            ("Data", [[("Name", CellValue.str ("Jane"))]])] (some ("Data"))) none) :=
  ⟨by decide,
   (c8_sheet_discovery 0).2.1
     [(("Definitions" : String), [[(("Name" : String), CellValue.str ("X"))]]),
      ("Data", [[("Name", CellValue.str ("Jane"))]])] ⟨"Data", 1⟩ (by decide)⟩
